import Mathlib

/-!
# Flappy Herring: a shallow embedding of `game.js`

The module-level variables of `game.js` (`bird`, `pipes`, `fireballs`, `powerups`, `score`,
`gameOver`, `gameStarted`, the three last-spawn times) become the fields of one `State` record
and every function of the script becomes a function on `State`.

Conventions of the embedding:

* JavaScript numbers are modelled as exact rationals (`ℚ`); rounding of IEEE doubles is not
  modelled.  `Date.now()` is an integer number of milliseconds and is passed in as `now : ℤ`.
* `Math.random()` is passed in as an explicit draw `r : ℚ`; the script promises `0 ≤ r < 1`.
* `canvas.width` and `canvas.height` come from the page, not from the script; they are the
  fields of a `Canvas` parameter (non-negative integers, as in the DOM interface).
* `setTimeout` callbacks live in `State.timers` as the list of their due times; `update` never
  runs them, the event loop does (`runTimers`).
* Drawing and the score label are not part of the state.
-/

namespace FlappyHerring

/-! ## Game constants (game.js, lines 6-15) -/

def GRAVITY : ℚ := 23 / 100
def FLAP_STRENGTH : ℚ := -7
def PIPE_SPEED : ℚ := 2
def PIPE_GAP : ℚ := 150
def PIPE_WIDTH : ℚ := 50
def MAX_ROTATION : ℚ := 25
def FIREBALL_SPEED : ℚ := 4
def POWERUP_SPEED : ℚ := 2
def POWERUP_SIZE : ℚ := 30
def INVINCIBILITY_DURATION : ℤ := 5000

/-! ## Data model -/

/-- The drawing surface; only its two dimensions are read by the game logic. -/
structure Canvas where
  width : ℕ
  height : ℕ
  deriving DecidableEq, Repr

/-- The player object `bird` (game.js, lines 18-26). -/
structure Bird where
  x : ℚ
  y : ℚ
  velocity : ℚ
  rotation : ℚ
  width : ℚ
  height : ℚ
  isInvincible : Bool
  deriving DecidableEq, Repr

/-- An entry of `pipes`, as pushed by `createPipe`. -/
structure Pipe where
  x : ℚ
  gapY : ℚ
  passed : Bool
  deriving DecidableEq, Repr

/-- An entry of `fireballs`, as pushed by `createFireball`. -/
structure Fireball where
  x : ℚ
  y : ℚ
  width : ℚ
  height : ℚ
  deriving DecidableEq, Repr

/-- An entry of `powerups`, as pushed by `createPowerup`. -/
structure Powerup where
  x : ℚ
  y : ℚ
  width : ℚ
  height : ℚ
  collected : Bool
  deriving DecidableEq, Repr

/-- All module-level mutable variables of the script, plus the pending `setTimeout`
callbacks of `activatePowerup` (each stored as the time at which it is due). -/
structure State where
  bird : Bird
  pipes : List Pipe
  fireballs : List Fireball
  powerups : List Powerup
  score : ℕ
  gameOver : Bool
  lastPipeTime : ℤ
  lastFireballTime : ℤ
  lastPowerupTime : ℤ
  gameStarted : Bool
  timers : List ℤ
  deriving DecidableEq, Repr

/-- The module state right after the script has been loaded (game.js, lines 18-36). -/
def initialState (c : Canvas) : State :=
  { bird :=
      { x := (c.width : ℚ) / 3
        y := (c.height : ℚ) / 2
        velocity := 0
        rotation := 0
        width := 40
        height := 30
        isInvincible := false }
    pipes := []
    fireballs := []
    powerups := []
    score := 0
    gameOver := false
    lastPipeTime := 0
    lastFireballTime := 0
    lastPowerupTime := 0
    gameStarted := false
    timers := [] }

/-- The game is running: started and not over. -/
def Playing (s : State) : Prop := s.gameStarted = true ∧ s.gameOver = false

instance (s : State) : Decidable (Playing s) := by
  unfold Playing; infer_instance

/-! ## Reset and input (game.js, lines 49-64 and 284-299) -/

/-- `resetGame()`; the three `Date.now()` reads are taken at the same instant `now`.
`bird.x`, `bird.width`, `bird.height` and pending timeouts are not touched. -/
def resetGame (c : Canvas) (now : ℤ) (s : State) : State :=
  { s with
    bird := { s.bird with
      y := (c.height : ℚ) / 2
      velocity := 0
      rotation := 0
      isInvincible := false }
    pipes := []
    fireballs := []
    powerups := []
    score := 0
    gameOver := false
    gameStarted := true
    lastPipeTime := now
    lastFireballTime := now
    lastPowerupTime := now }

/-- `handleInput(e)`: the event only matters for `preventDefault`, which is outside the state. -/
def handleInput (c : Canvas) (now : ℤ) (s : State) : State :=
  let s1 : State := if !s.gameStarted then { s with gameStarted := true } else s
  if s1.gameOver then resetGame c now s1
  else { s1 with bird := { s1.bird with velocity := FLAP_STRENGTH } }

/-! ## Spawning (game.js, lines 81-109) -/

/-- `createPipe()` with `Math.random()` returning `r`. -/
def createPipe (c : Canvas) (r : ℚ) (s : State) : State :=
  let gapY := r * ((c.height : ℚ) - PIPE_GAP - 100) + 50
  { s with pipes := s.pipes ++ [{ x := (c.width : ℚ), gapY := gapY, passed := false }] }

/-- `createFireball()` with `Math.random()` returning `r`. -/
def createFireball (c : Canvas) (r : ℚ) (s : State) : State :=
  let y := r * ((c.height : ℚ) - 50)
  { s with fireballs := s.fireballs ++ [{ x := (c.width : ℚ), y := y, width := 30, height := 30 }] }

/-- `createPowerup()` with `Math.random()` returning `r`. -/
def createPowerup (c : Canvas) (r : ℚ) (s : State) : State :=
  let y := r * ((c.height : ℚ) - POWERUP_SIZE)
  { s with powerups := s.powerups ++
      [{ x := (c.width : ℚ), y := y, width := POWERUP_SIZE, height := POWERUP_SIZE,
         collected := false }] }

/-- `activatePowerup()` called at time `now`: the flag is raised and a callback that lowers it
is scheduled `INVINCIBILITY_DURATION` milliseconds later. -/
def activatePowerup (now : ℤ) (s : State) : State :=
  { s with
    bird := { s.bird with isInvincible := true }
    timers := s.timers ++ [now + INVINCIBILITY_DURATION] }

/-- The event loop at time `now`: every callback that is due runs (it lowers the flag) and is
dropped from the pending list. -/
def runTimers (now : ℤ) (s : State) : State :=
  if s.timers.any (fun t => decide (t ≤ now)) then
    { s with
      bird := { s.bird with isInvincible := false }
      timers := s.timers.filter (fun t => !decide (t ≤ now)) }
  else s

/-! ## The frame update (game.js, lines 111-215) -/

/-- Lines 115-117: gravity, vertical move, clamped rotation. -/
def updateBird (s : State) : State :=
  let v := s.bird.velocity + GRAVITY
  let y := s.bird.y + v
  { s with bird := { s.bird with
      velocity := v
      y := y
      rotation := max (-MAX_ROTATION) (min MAX_ROTATION (v * 2)) } }

/-- Lines 120-124: pipe spawn timer. -/
def generatePipes (c : Canvas) (now : ℤ) (r : ℚ) (s : State) : State :=
  if now - s.lastPipeTime > 1500 then { createPipe c r s with lastPipeTime := now } else s

/-- Lines 127-130: fireball spawn timer. -/
def generateFireballs (c : Canvas) (now : ℤ) (r : ℚ) (s : State) : State :=
  if now - s.lastFireballTime > 2000 then { createFireball c r s with lastFireballTime := now }
  else s

/-- Lines 133-136: powerup spawn timer. -/
def generatePowerups (c : Canvas) (now : ℤ) (r : ℚ) (s : State) : State :=
  if now - s.lastPowerupTime > 8000 then { createPowerup c r s with lastPowerupTime := now }
  else s

/-- The pipe collision test of lines 157-160 (without the invincibility guard). -/
def hitsPipe (b : Bird) (p : Pipe) : Prop :=
  (b.x + b.width > p.x ∧ b.x < p.x + PIPE_WIDTH) ∧
    (b.y < p.gapY - PIPE_GAP / 2 ∨ b.y + b.height > p.gapY + PIPE_GAP / 2)

instance (b : Bird) (p : Pipe) : Decidable (hitsPipe b p) := by
  unfold hitsPipe; infer_instance

/-- The box overlap test of lines 179-182 and 200-203, on the other box's `x y width height`. -/
def overlaps (b : Bird) (x y w h : ℚ) : Prop :=
  b.x + b.width > x ∧ b.x < x + w ∧ b.y + b.height > y ∧ b.y < y + h

instance (b : Bird) (x y w h : ℚ) : Decidable (overlaps b x y w h) := by
  unfold overlaps; infer_instance

/-- Lines 139-165: the backwards loop over `pipes`.  `pipesLoop n` runs the iterations
`i = n-1, n-2, ..., 0`; `update` starts it at `n = pipes.length`.  An index outside the array
cannot occur (the loop only splices at the current index); that branch skips the iteration. -/
def pipesLoop : ℕ → State → State
  | 0, s => s
  | i + 1, s =>
    match s.pipes[i]? with
    | none => pipesLoop i s
    | some pipe0 =>
      -- pipe.x -= PIPE_SPEED
      let pipe1 : Pipe := { pipe0 with x := pipe0.x - PIPE_SPEED }
      -- if (!pipe.passed && pipe.x < bird.x) { score++; pipe.passed = true }
      let scored : Prop := pipe1.passed = false ∧ pipe1.x < s.bird.x
      let score1 := if scored then s.score + 1 else s.score
      let pipe2 : Pipe := if scored then { pipe1 with passed := true } else pipe1
      let pipes1 := s.pipes.set i pipe2
      -- if (pipe.x < -PIPE_WIDTH) pipes.splice(i, 1)
      let pipes2 := if pipe2.x < -PIPE_WIDTH then pipes1.eraseIdx i else pipes1
      -- collision, still on the local `pipe`
      let gameOver1 :=
        if s.bird.isInvincible = false ∧ hitsPipe s.bird pipe2 then true else s.gameOver
      pipesLoop i { s with pipes := pipes2, score := score1, gameOver := gameOver1 }

/-- Lines 168-186: the backwards loop over `fireballs`, indexed like `pipesLoop`. -/
def fireballsLoop : ℕ → State → State
  | 0, s => s
  | i + 1, s =>
    match s.fireballs[i]? with
    | none => fireballsLoop i s
    | some fb0 =>
      -- fireball.x -= FIREBALL_SPEED
      let fb1 : Fireball := { fb0 with x := fb0.x - FIREBALL_SPEED }
      let fbs1 := s.fireballs.set i fb1
      -- if (fireball.x < -fireball.width) fireballs.splice(i, 1)
      let fbs2 := if fb1.x < -fb1.width then fbs1.eraseIdx i else fbs1
      let gameOver1 :=
        if s.bird.isInvincible = false ∧ overlaps s.bird fb1.x fb1.y fb1.width fb1.height
        then true else s.gameOver
      fireballsLoop i { s with fireballs := fbs2, gameOver := gameOver1 }

/-- Lines 189-209: the backwards loop over `powerups`, indexed like `pipesLoop`.  Both
`splice(i, 1)` calls of one iteration are kept: when the first one has already removed the
current powerup, the second one removes whatever now sits at index `i`. -/
def powerupsLoop (now : ℤ) : ℕ → State → State
  | 0, s => s
  | i + 1, s =>
    match s.powerups[i]? with
    | none => powerupsLoop now i s
    | some pw0 =>
      -- powerup.x -= POWERUP_SPEED
      let pw1 : Powerup := { pw0 with x := pw0.x - POWERUP_SPEED }
      let pws1 := s.powerups.set i pw1
      -- if (powerup.x < -powerup.width) powerups.splice(i, 1)
      let gone : Prop := pw1.x < -pw1.width
      let pws2 := if gone then pws1.eraseIdx i else pws1
      if pw1.collected = false ∧ overlaps s.bird pw1.x pw1.y pw1.width pw1.height then
        -- powerup.collected = true: visible in the array only if the object is still in it
        let pws3 := if gone then pws2 else pws2.set i { pw1 with collected := true }
        -- activatePowerup(); powerups.splice(i, 1)
        let s1 := activatePowerup now { s with powerups := pws3 }
        powerupsLoop now i { s1 with powerups := s1.powerups.eraseIdx i }
      else
        powerupsLoop now i { s with powerups := pws2 }

/-- Lines 212-214: leaving the playfield vertically ends the game. -/
def checkBoundaries (c : Canvas) (s : State) : State :=
  if s.bird.y < 0 ∨ s.bird.y + s.bird.height > (c.height : ℚ) then { s with gameOver := true }
  else s

/-- `update()` at clock value `now`, with one random draw per entity kind (a draw is only
consumed when that kind spawns). -/
def update (c : Canvas) (now : ℤ) (rPipe rFire rPow : ℚ) (s : State) : State :=
  if s.gameOver ∨ s.gameStarted = false then s
  else
    let s1 := updateBird s
    let s2 := generatePipes c now rPipe s1
    let s3 := generateFireballs c now rFire s2
    let s4 := generatePowerups c now rPow s3
    let s5 := pipesLoop s4.pipes.length s4
    let s6 := fireballsLoop s5.fireballs.length s5
    let s7 := powerupsLoop now s6.powerups.length s6
    checkBoundaries c s7

/-! ## Loop-free descriptions of the loops

The definitions below are not part of the script; they describe, element by element, what one
pass of a loop does, and are proved equal to the loops further down. -/

/-- One iteration of the pipe loop seen from the pipe (lines 140-148): scroll, then mark as
passed when the pipe is not yet marked and lies strictly left of `bird.x` (here `bx`). -/
def stepPipe (bx : ℚ) (p : Pipe) : Pipe :=
  let p1 : Pipe := { p with x := p.x - PIPE_SPEED }
  if p1.passed = false ∧ p1.x < bx then { p1 with passed := true } else p1

/-- The guard of `score++` (line 144) for a pipe as it is before the scroll of this tick. -/
def scoresPipe (bx : ℚ) (p : Pipe) : Prop := p.passed = false ∧ p.x - PIPE_SPEED < bx

instance (bx : ℚ) (p : Pipe) : Decidable (scoresPipe bx p) := by
  unfold scoresPipe; infer_instance

/-- The guard of `pipes.splice(i, 1)` (line 151), on the scrolled pipe. -/
def pipeGone (p : Pipe) : Prop := p.x < -PIPE_WIDTH

instance (p : Pipe) : Decidable (pipeGone p) := by
  unfold pipeGone; infer_instance

/-- One iteration of the fireball loop seen from the fireball (line 170): scroll. -/
def stepFireball (f : Fireball) : Fireball := { f with x := f.x - FIREBALL_SPEED }

/-- The guard of `fireballs.splice(i, 1)` (line 173), on the scrolled fireball. -/
def fireballGone (f : Fireball) : Prop := f.x < -f.width

instance (f : Fireball) : Decidable (fireballGone f) := by
  unfold fireballGone; infer_instance

/-- The fireball collision test of lines 179-182 (without the invincibility guard). -/
def hitsFireball (b : Bird) (f : Fireball) : Prop := overlaps b f.x f.y f.width f.height

instance (b : Bird) (f : Fireball) : Decidable (hitsFireball b f) := by
  unfold hitsFireball; infer_instance

/-- What the powerup loop may change: only `powerups`, the invincibility flag and the timers. -/
def PowerupFrame (s t : State) : Prop :=
  t.pipes = s.pipes ∧ t.fireballs = s.fireballs ∧ t.score = s.score ∧ t.gameOver = s.gameOver ∧
  t.gameStarted = s.gameStarted ∧ t.lastPipeTime = s.lastPipeTime ∧
  t.lastFireballTime = s.lastFireballTime ∧ t.lastPowerupTime = s.lastPowerupTime ∧
  t.bird.x = s.bird.x ∧ t.bird.y = s.bird.y ∧ t.bird.velocity = s.bird.velocity ∧
  t.bird.rotation = s.bird.rotation ∧ t.bird.width = s.bird.width ∧
  t.bird.height = s.bird.height

/-- The state after the physics step and the three spawn checks (lines 115-136). -/
def spawnPhase (c : Canvas) (now : ℤ) (rPipe rFire rPow : ℚ) (s : State) : State :=
  generatePowerups c now rPow (generateFireballs c now rFire (generatePipes c now rPipe (updateBird s)))

/-- The pipe pushed by `createPipe` for the draw `r`. -/
def newPipe (c : Canvas) (r : ℚ) : Pipe :=
  { x := (c.width : ℚ), gapY := r * ((c.height : ℚ) - PIPE_GAP - 100) + 50, passed := false }

/-- The fireball pushed by `createFireball` for the draw `r`. -/
def newFireball (c : Canvas) (r : ℚ) : Fireball :=
  { x := (c.width : ℚ), y := r * ((c.height : ℚ) - 50), width := 30, height := 30 }

/-- The powerup pushed by `createPowerup` for the draw `r`. -/
def newPowerup (c : Canvas) (r : ℚ) : Powerup :=
  { x := (c.width : ℚ), y := r * ((c.height : ℚ) - POWERUP_SIZE), width := POWERUP_SIZE,
    height := POWERUP_SIZE, collected := false }

/-- The state after the pipe and fireball loops, written without loops. -/
def afterObstacles (t : State) : State :=
  { t with
    pipes := (t.pipes.map (stepPipe t.bird.x)).filter (fun p => !decide (pipeGone p))
    fireballs := (t.fireballs.map stepFireball).filter (fun f => !decide (fireballGone f))
    score := t.score + t.pipes.countP (fun p => decide (scoresPipe t.bird.x p))
    gameOver := t.gameOver ||
      (!t.bird.isInvincible &&
        (t.pipes.any (fun p => decide (hitsPipe t.bird (stepPipe t.bird.x p))) ||
          t.fireballs.any (fun f => decide (hitsFireball t.bird (stepFireball f))))) }

/-- The pipes the pipe loop of this tick walks over: the old ones and, when the spawn timer
fires, the new one pushed at the end. -/
def visitedPipes (c : Canvas) (now : ℤ) (rPipe : ℚ) (s : State) : List Pipe :=
  s.pipes ++ (if now - s.lastPipeTime > 1500 then [newPipe c rPipe] else [])

/-- Lines 138-214 of `update`, applied to the state `t` reached after the spawn checks: the
three loops, then the boundary check. -/
def runLoops (c : Canvas) (now : ℤ) (t : State) : State :=
  checkBoundaries c
    (powerupsLoop now
      (fireballsLoop (pipesLoop t.pipes.length t).fireballs.length
        (pipesLoop t.pipes.length t)).powerups.length
      (fireballsLoop (pipesLoop t.pipes.length t).fireballs.length (pipesLoop t.pipes.length t)))

/-! ## Runs

What the browser makes the script do, one event at a time: `gameLoop` calls `update` once per
animation frame, a listener calls `handleInput`, and the event loop runs the `setTimeout`
callbacks that are due. -/

/-- One thing that happens to the game. -/
inductive Event where
  | frame (now : ℤ) (rPipe rFire rPow : ℚ)
  | input (now : ℤ)
  | timeout (now : ℤ)
  deriving DecidableEq, Repr

/-- The effect of one event. -/
def step (c : Canvas) : Event → State → State
  | Event.frame now rPipe rFire rPow, s => update c now rPipe rFire rPow s
  | Event.input now, s => handleInput c now s
  | Event.timeout now, s => runTimers now s

/-- The effect of a list of events, first event first. -/
def run (c : Canvas) : List Event → State → State
  | [], s => s
  | e :: es, s => run c es (step c e s)

/-- The number of `update` calls in a list of events. -/
def frames : List Event → ℕ
  | [] => 0
  | Event.frame _ _ _ _ :: es => frames es + 1
  | _ :: es => frames es

/-- The pipes pushed by `createPipe` during a run that starts in `s`, each paired with the
number of `update` calls that have scrolled it by the end of the run (the frame that creates a
pipe also scrolls it). -/
def births (c : Canvas) : List Event → State → List (Pipe × ℕ)
  | [], _ => []
  | Event.frame now rPipe rFire rPow :: es, s =>
    (if Playing s ∧ now - s.lastPipeTime > 1500 then [(newPipe c rPipe, frames es + 1)] else []) ++
      births c es (update c now rPipe rFire rPow s)
  | Event.input now :: es, s => births c es (handleInput c now s)
  | Event.timeout now :: es, s => births c es (runTimers now s)

/-- A pipe last seen as `q.1` and scrolled `q.2` times since then has been counted in the
score: it was not yet marked, it has been scrolled at least once, and it now lies strictly
left of `bird.x` (here `bx`). -/
def hasScored (bx : ℚ) (q : Pipe × ℕ) : Prop :=
  q.1.passed = false ∧ 1 ≤ q.2 ∧ q.1.x - PIPE_SPEED * (q.2 : ℚ) < bx

instance (bx : ℚ) (q : Pipe × ℕ) : Decidable (hasScored bx q) := by
  unfold hasScored; infer_instance

/-! ## Loop-free description of the powerup loop -/

/-- One iteration of the powerup loop seen from the powerup (line 191): scroll. -/
def stepPowerup (p : Powerup) : Powerup := { p with x := p.x - POWERUP_SPEED }

/-- The guard of the first `powerups.splice(i, 1)` (line 194), on the scrolled powerup. -/
def powerupGone (p : Powerup) : Prop := p.x < -p.width

instance (p : Powerup) : Decidable (powerupGone p) := by
  unfold powerupGone; infer_instance

/-- The powerup collision test of lines 200-203 (without the `collected` guard). -/
def hitsPowerup (b : Bird) (p : Powerup) : Prop := overlaps b p.x p.y p.width p.height

instance (b : Bird) (p : Powerup) : Decidable (hitsPowerup b p) := by
  unfold hitsPowerup; infer_instance

/-- The fireballs the fireball loop of this tick walks over: the old ones and, when the spawn
timer fires, the new one pushed at the end. -/
def visitedFireballs (c : Canvas) (now : ℤ) (rFire : ℚ) (s : State) : List Fireball :=
  s.fireballs ++ (if now - s.lastFireballTime > 2000 then [newFireball c rFire] else [])

/-- The powerups the powerup loop of this tick walks over: the old ones and, when the spawn
timer fires, the new one pushed at the end. -/
def visitedPowerups (c : Canvas) (now : ℤ) (rPow : ℚ) (s : State) : List Powerup :=
  s.powerups ++ (if now - s.lastPowerupTime > 8000 then [newPowerup c rPow] else [])

/-! ## The scroll-and-clean-up step as the specification words it -/

/-- Specification wording: every pipe moves left by `PIPE_SPEED`, then the pipes with
`x < -PIPE_WIDTH` are dropped (map, then filter). -/
def scrollThenDropPipes (l : List Pipe) : List Pipe :=
  (l.map (fun p => { p with x := p.x - PIPE_SPEED })).filter
    (fun p => !decide (p.x < -PIPE_WIDTH))

/-- Specification wording: every fireball moves left by `FIREBALL_SPEED`, then the fireballs
with `x < -width` are dropped (map, then filter). -/
def scrollThenDropFireballs (l : List Fireball) : List Fireball :=
  (l.map (fun f => { f with x := f.x - FIREBALL_SPEED })).filter
    (fun f => !decide (f.x < -f.width))

/-- The scoring mark the pipe loop sets in the same pass: a pipe is marked once its scrolled
position is strictly left of `bird.x` (here `bx`). -/
def markPassed (bx : ℚ) (p : Pipe) : Pipe :=
  { p with passed := p.passed || decide (p.x - PIPE_SPEED < bx) }

/-! ## Runs without collection and without reset -/

/-- The event `e`, happening in state `s`, is neither a powerup collection nor a reset: a frame
in which `activatePowerup` is not called (it would queue a timeout), or an input while the
game is not over, or a timeout. -/
def Quiet (c : Canvas) (e : Event) (s : State) : Prop :=
  match e with
  | Event.frame now rPipe rFire rPow => (update c now rPipe rFire rPow s).timers = s.timers
  | Event.input _ => s.gameOver = false
  | Event.timeout _ => True

/-- Every event of the run is quiet in the state in which it happens. -/
def QuietRun (c : Canvas) : List Event → State → Prop
  | [], _ => True
  | e :: es, s => Quiet c e s ∧ QuietRun c es (step c e s)

/-! ## Concrete states used as test inputs -/

/-- A playing state with the bird 25 units above the floor of a 600-high field, falling at 10
per tick, and invincible. -/
def boundaryState : State :=
  { initialState ⟨400, 600⟩ with
    gameStarted := true
    bird := { (initialState ⟨400, 600⟩).bird with y := 575, velocity := 10, isInvincible := true } }

/-- A playing state on a 400 x 600 field whose 40 x 30 bird at (100, 300) sits inside a pipe
wall (gap centred at 100) and on top of a fireball. -/
def overlapState (invincible : Bool) : State :=
  { initialState ⟨400, 600⟩ with
    gameStarted := true
    bird := { (initialState ⟨400, 600⟩).bird with x := 100, y := 300, isInvincible := invincible }
    pipes := [{ x := 110, gapY := 100, passed := false }]
    fireballs := [{ x := 110, y := 300, width := 30, height := 30 }] }

/-- A playing state with score 3 and two pipes around the bird at x = 100: one already passed,
one not yet passed that the next scroll brings from 101 to 99. -/
def scoringState : State :=
  { initialState ⟨400, 600⟩ with
    gameStarted := true
    score := 3
    bird := { (initialState ⟨400, 600⟩).bird with x := 100 }
    pipes := [{ x := 60, gapY := 300, passed := true }, { x := 101, gapY := 300, passed := false }] }

/-- A state in which the game is over, with a falling bird and leftovers on the field. -/
def crashedState : State :=
  { initialState ⟨400, 600⟩ with
    gameStarted := true
    gameOver := true
    score := 5
    bird := { (initialState ⟨400, 600⟩).bird with y := 590, velocity := 9, rotation := 18 }
    pipes := [{ x := 120, gapY := 300, passed := true }]
    lastPipeTime := 4000 }

/-- A playing state with a falling bird. -/
def fallingState : State :=
  { initialState ⟨400, 600⟩ with
    gameStarted := true
    bird := { (initialState ⟨400, 600⟩).bird with y := 200, velocity := 6, rotation := 12 } }

/-- The state right after a reset at time 0 on a 400 x 600 field. -/
def freshState : State := resetGame ⟨400, 600⟩ 0 (initialState ⟨400, 600⟩)

/-- A playing state with the bird at x = 100 (inside the gap, at y = 300) and one unpassed
pipe at x = 102, which the next scroll brings to exactly x = 100. -/
def edgeState : State :=
  { initialState ⟨400, 600⟩ with
    gameStarted := true
    bird := { (initialState ⟨400, 600⟩).bird with x := 100 }
    pipes := [{ x := 102, gapY := 300, passed := false }] }

/-- A playing state on a 400 x 600 field with the bird at (100, 300) and three uncollected
powerups: one about to leave the screen on the left, one on the bird, one far to the right. -/
def powerupState (invincible : Bool) : State :=
  { initialState ⟨400, 600⟩ with
    gameStarted := true
    bird := { (initialState ⟨400, 600⟩).bird with x := 100, y := 300, isInvincible := invincible }
    powerups :=
      [{ x := -29, y := 50, width := 30, height := 30, collected := false },
       { x := 120, y := 300, width := 30, height := 30, collected := false },
       { x := 300, y := 100, width := 30, height := 30, collected := false }] }

/-- A playing state on a 400 x 600 field with, for each of pipes and fireballs, one entry that
the next scroll takes off the screen and one that stays on it. -/
def scrollState : State :=
  { initialState ⟨400, 600⟩ with
    gameStarted := true
    bird := { (initialState ⟨400, 600⟩).bird with x := 100 }
    pipes := [{ x := -49, gapY := 300, passed := true }, { x := 200, gapY := 310, passed := false }]
    fireballs := [{ x := -27, y := 10, width := 30, height := 30 },
                  { x := 300, y := 10, width := 30, height := 30 }] }

/-- A playing state on a 400 x 600 field with the bird at (100, 300) and two uncollected
powerups at the bird's height: the first scroll brings the first one onto the bird, the second
scroll brings the second one onto it. -/
def twoPowerupState : State :=
  { initialState ⟨400, 600⟩ with
    gameStarted := true
    bird := { (initialState ⟨400, 600⟩).bird with x := 100, y := 300 }
    powerups :=
      [{ x := 120, y := 300, width := 30, height := 30, collected := false },
       { x := 142, y := 300, width := 30, height := 30, collected := false }] }

/-! ## Lemmas on the loops and on `update` -/

section ListSplit

variable {α : Type}

theorem getElem?_mid (l r : List α) (a : α) : (l ++ a :: r)[l.length]? = some a := by
  induction l with
  | nil => simp
  | cons h t ih => simpa using ih

theorem set_mid (l r : List α) (a b : α) : (l ++ a :: r).set l.length b = l ++ b :: r := by
  induction l with
  | nil => rfl
  | cons h t ih => simp [ih]

theorem eraseIdx_mid (l r : List α) (a : α) : (l ++ a :: r).eraseIdx l.length = l ++ r := by
  induction l with
  | nil => rfl
  | cons h t ih => simp [ih]

end ListSplit

theorem pipesLoop_split (pre : List Pipe) : ∀ (post : List Pipe) (s : State),
    s.pipes = pre ++ post →
    pipesLoop pre.length s =
      { s with
        pipes := (pre.map (stepPipe s.bird.x)).filter (fun p => !decide (pipeGone p)) ++ post
        score := s.score + pre.countP (fun p => decide (scoresPipe s.bird.x p))
        gameOver := s.gameOver ||
          (!s.bird.isInvincible && pre.any (fun p => decide (hitsPipe s.bird (stepPipe s.bird.x p)))) } := by
  induction pre using List.reverseRecOn with
  | nil =>
    intro post s h
    cases s
    simp_all [pipesLoop]
  | append_singleton l a ih =>
    intro post s h
    have hlen : (l ++ [a]).length = l.length + 1 := by simp
    have hp : s.pipes = l ++ a :: post := by simp [h]
    rw [hlen, pipesLoop, hp, getElem?_mid]
    simp only [set_mid, eraseIdx_mid]
    have hstep : (if a.passed = false ∧ a.x - PIPE_SPEED < s.bird.x then
        ({ x := a.x - PIPE_SPEED, gapY := a.gapY, passed := true } : Pipe)
        else { x := a.x - PIPE_SPEED, gapY := a.gapY, passed := a.passed }) = stepPipe s.bird.x a := rfl
    have key : ∀ x : Pipe, (if x.x < -PIPE_WIDTH then l ++ post else l ++ x :: post) =
        l ++ ((if pipeGone x then [] else [x]) ++ post) := by
      intro x; unfold pipeGone; split <;> simp
    rw [hstep, key, ih _ _ rfl]
    have hsc : ∀ p, scoresPipe s.bird.x p ↔ (p.passed = false ∧ p.x - PIPE_SPEED < s.bird.x) :=
      fun _ => Iff.rfl
    by_cases h1 : (a.passed = false ∧ a.x - PIPE_SPEED < s.bird.x) <;>
      by_cases h2 : pipeGone (stepPipe s.bird.x a) <;>
      by_cases h3 : hitsPipe s.bird (stepPipe s.bird.x a) <;>
      cases hi : s.bird.isInvincible <;> cases hg : s.gameOver <;>
      simp [hsc, h1, h2, h3, List.filter_append, List.countP_append] <;> omega

theorem fireballsLoop_split (pre : List Fireball) : ∀ (post : List Fireball) (s : State),
    s.fireballs = pre ++ post →
    fireballsLoop pre.length s =
      { s with
        fireballs := (pre.map stepFireball).filter (fun f => !decide (fireballGone f)) ++ post
        gameOver := s.gameOver ||
          (!s.bird.isInvincible && pre.any (fun f => decide (hitsFireball s.bird (stepFireball f)))) } := by
  induction pre using List.reverseRecOn with
  | nil =>
    intro post s h
    cases s
    simp_all [fireballsLoop]
  | append_singleton l a ih =>
    intro post s h
    have hlen : (l ++ [a]).length = l.length + 1 := by simp
    have hp : s.fireballs = l ++ a :: post := by simp [h]
    rw [hlen, fireballsLoop, hp, getElem?_mid]
    simp only [set_mid, eraseIdx_mid]
    refine (congrArg (fireballsLoop l.length) (?_ : _ =
      ({ s with
          fireballs := l ++ ((if fireballGone (stepFireball a) then [] else [stepFireball a]) ++ post)
          gameOver := if s.bird.isInvincible = false ∧ hitsFireball s.bird (stepFireball a)
            then true else s.gameOver } : State))).trans ((ih _ _ rfl).trans ?_)
    · simp only [fireballGone, stepFireball, hitsFireball]
      by_cases h2 : a.x - FIREBALL_SPEED < -a.width <;> simp [h2]
    · by_cases h2 : fireballGone (stepFireball a) <;>
        by_cases h3 : hitsFireball s.bird (stepFireball a) <;>
        cases hi : s.bird.isInvincible <;> cases hg : s.gameOver <;>
        simp [h2, h3, List.filter_append]

theorem PowerupFrame.trans {s t u : State} (h1 : PowerupFrame s t) (h2 : PowerupFrame t u) :
    PowerupFrame s u := by
  unfold PowerupFrame at *
  obtain ⟨a1, a2, a3, a4, a5, a6, a7, a8, a9, a10, a11, a12, a13, a14⟩ := h1
  obtain ⟨b1, b2, b3, b4, b5, b6, b7, b8, b9, b10, b11, b12, b13, b14⟩ := h2
  exact ⟨b1.trans a1, b2.trans a2, b3.trans a3, b4.trans a4, b5.trans a5, b6.trans a6,
    b7.trans a7, b8.trans a8, b9.trans a9, b10.trans a10, b11.trans a11, b12.trans a12,
    b13.trans a13, b14.trans a14⟩

theorem powerupsLoop_frame (now : ℤ) (n : ℕ) : ∀ s : State,
    PowerupFrame s (powerupsLoop now n s) := by
  induction n with
  | zero => intro s; simp [powerupsLoop, PowerupFrame]
  | succ i ih =>
    intro s
    rw [powerupsLoop]
    split
    · exact ih s
    · dsimp only
      split
      · exact PowerupFrame.trans (by simp [PowerupFrame, activatePowerup]) (ih _)
      · exact ih _

theorem pipesLoop_full (s : State) :
    pipesLoop s.pipes.length s =
      { s with
        pipes := (s.pipes.map (stepPipe s.bird.x)).filter (fun p => !decide (pipeGone p))
        score := s.score + s.pipes.countP (fun p => decide (scoresPipe s.bird.x p))
        gameOver := s.gameOver ||
          (!s.bird.isInvincible &&
            s.pipes.any (fun p => decide (hitsPipe s.bird (stepPipe s.bird.x p)))) } := by
  simpa using pipesLoop_split s.pipes [] s (by simp)

theorem fireballsLoop_full (s : State) :
    fireballsLoop s.fireballs.length s =
      { s with
        fireballs := (s.fireballs.map stepFireball).filter (fun f => !decide (fireballGone f))
        gameOver := s.gameOver ||
          (!s.bird.isInvincible &&
            s.fireballs.any (fun f => decide (hitsFireball s.bird (stepFireball f)))) } := by
  simpa using fireballsLoop_split s.fireballs [] s (by simp)

theorem update_of_playing (c : Canvas) (now : ℤ) (rPipe rFire rPow : ℚ) (s : State)
    (h : Playing s) :
    update c now rPipe rFire rPow s =
      checkBoundaries c
        (powerupsLoop now
          (fireballsLoop (pipesLoop (spawnPhase c now rPipe rFire rPow s).pipes.length
              (spawnPhase c now rPipe rFire rPow s)).fireballs.length
            (pipesLoop (spawnPhase c now rPipe rFire rPow s).pipes.length
              (spawnPhase c now rPipe rFire rPow s))).powerups.length
          (fireballsLoop (pipesLoop (spawnPhase c now rPipe rFire rPow s).pipes.length
              (spawnPhase c now rPipe rFire rPow s)).fireballs.length
            (pipesLoop (spawnPhase c now rPipe rFire rPow s).pipes.length
              (spawnPhase c now rPipe rFire rPow s)))) := by
  obtain ⟨h1, h2⟩ := h
  simp [update, h1, h2, spawnPhase]

theorem update_of_not_playing (c : Canvas) (now : ℤ) (rPipe rFire rPow : ℚ) (s : State)
    (h : ¬ Playing s) : update c now rPipe rFire rPow s = s := by
  unfold Playing at h
  unfold update
  cases h1 : s.gameStarted <;> cases h2 : s.gameOver <;> simp_all

theorem spawnPhase_bird (c : Canvas) (now : ℤ) (rPipe rFire rPow : ℚ) (s : State) :
    (spawnPhase c now rPipe rFire rPow s).bird = (updateBird s).bird := by
  unfold spawnPhase generatePowerups generateFireballs generatePipes createPowerup createFireball
    createPipe
  split <;> split <;> split <;> rfl

theorem spawnPhase_eq (c : Canvas) (now : ℤ) (rPipe rFire rPow : ℚ) (s : State) :
    spawnPhase c now rPipe rFire rPow s =
      { s with
        bird := (updateBird s).bird
        pipes := s.pipes ++ (if now - s.lastPipeTime > 1500 then [newPipe c rPipe] else [])
        fireballs := s.fireballs ++
          (if now - s.lastFireballTime > 2000 then [newFireball c rFire] else [])
        powerups := s.powerups ++
          (if now - s.lastPowerupTime > 8000 then [newPowerup c rPow] else [])
        lastPipeTime := if now - s.lastPipeTime > 1500 then now else s.lastPipeTime
        lastFireballTime := if now - s.lastFireballTime > 2000 then now else s.lastFireballTime
        lastPowerupTime := if now - s.lastPowerupTime > 8000 then now else s.lastPowerupTime } := by
  unfold spawnPhase generatePowerups generateFireballs generatePipes createPowerup createFireball
    createPipe newPipe newFireball newPowerup updateBird
  by_cases h1 : now - s.lastPipeTime > 1500 <;> by_cases h2 : now - s.lastFireballTime > 2000 <;>
    by_cases h3 : now - s.lastPowerupTime > 8000 <;> simp [h1, h2, h3]

theorem obstacleLoops_eq (t : State) :
    fireballsLoop (pipesLoop t.pipes.length t).fireballs.length (pipesLoop t.pipes.length t) =
      afterObstacles t := by
  rw [pipesLoop_full]
  rw [fireballsLoop_full]
  unfold afterObstacles
  cases hi : t.bird.isInvincible <;> cases hg : t.gameOver <;> simp [Bool.or_assoc]

theorem update_eq (c : Canvas) (now : ℤ) (rPipe rFire rPow : ℚ) (s : State) (h : Playing s) :
    update c now rPipe rFire rPow s =
      checkBoundaries c
        (powerupsLoop now (afterObstacles (spawnPhase c now rPipe rFire rPow s)).powerups.length
          (afterObstacles (spawnPhase c now rPipe rFire rPow s))) := by
  rw [update_of_playing c now rPipe rFire rPow s h, obstacleLoops_eq]

theorem update_frame (c : Canvas) (now : ℤ) (rPipe rFire rPow : ℚ) (s : State) (h : Playing s) :
    PowerupFrame (afterObstacles (spawnPhase c now rPipe rFire rPow s))
      { update c now rPipe rFire rPow s with
        gameOver := (afterObstacles (spawnPhase c now rPipe rFire rPow s)).gameOver } := by
  rw [update_eq c now rPipe rFire rPow s h]
  have hf := powerupsLoop_frame now
    (afterObstacles (spawnPhase c now rPipe rFire rPow s)).powerups.length
    (afterObstacles (spawnPhase c now rPipe rFire rPow s))
  obtain ⟨a1, a2, a3, -, a5, a6, a7, a8, a9, a10, a11, a12, a13, a14⟩ := hf
  unfold checkBoundaries
  split <;> exact ⟨a1, a2, a3, rfl, a5, a6, a7, a8, a9, a10, a11, a12, a13, a14⟩

theorem update_gameOver (c : Canvas) (now : ℤ) (rPipe rFire rPow : ℚ) (s : State)
    (h : Playing s) :
    (update c now rPipe rFire rPow s).gameOver =
      (decide ((updateBird s).bird.y < 0 ∨
          (updateBird s).bird.y + (updateBird s).bird.height > (c.height : ℚ)) ||
        (afterObstacles (spawnPhase c now rPipe rFire rPow s)).gameOver) := by
  rw [update_eq c now rPipe rFire rPow s h]
  have hf := powerupsLoop_frame now
    (afterObstacles (spawnPhase c now rPipe rFire rPow s)).powerups.length
    (afterObstacles (spawnPhase c now rPipe rFire rPow s))
  obtain ⟨-, -, -, hgo, -, -, -, -, -, hy, -, -, -, hh⟩ := hf
  have hy2 : (afterObstacles (spawnPhase c now rPipe rFire rPow s)).bird.y = (updateBird s).bird.y := by
    simp [afterObstacles, spawnPhase_bird]
  have hh2 : (afterObstacles (spawnPhase c now rPipe rFire rPow s)).bird.height =
      (updateBird s).bird.height := by
    simp [afterObstacles, spawnPhase_bird]
  unfold checkBoundaries
  rw [hy, hh, hy2, hh2]
  split
  · rename_i hb
    simp [hb]
  · rename_i hb
    simp [hb, hgo]

theorem hit_pipe_not_gone (b : Bird) (p : Pipe) (hx : 0 ≤ b.x) (h : hitsPipe b p) : ¬ pipeGone p := by
  unfold hitsPipe at h
  unfold pipeGone
  have := h.1.2
  intro hg
  linarith

theorem hit_fireball_not_gone (b : Bird) (f : Fireball) (hx : 0 ≤ b.x) (h : hitsFireball b f) :
    ¬ fireballGone f := by
  unfold hitsFireball overlaps at h
  unfold fireballGone
  have := h.2.1
  intro hg
  linarith

theorem update_pipes (c : Canvas) (now : ℤ) (rPipe rFire rPow : ℚ) (s : State) (h : Playing s) :
    (update c now rPipe rFire rPow s).pipes =
      ((visitedPipes c now rPipe s).map (stepPipe s.bird.x)).filter
        (fun p => !decide (pipeGone p)) := by
  have hf := (update_frame c now rPipe rFire rPow s h).1
  simp only at hf
  rw [hf]
  simp [afterObstacles, spawnPhase_eq, updateBird, visitedPipes]

theorem update_score (c : Canvas) (now : ℤ) (rPipe rFire rPow : ℚ) (s : State) (h : Playing s) :
    (update c now rPipe rFire rPow s).score =
      s.score + (visitedPipes c now rPipe s).countP (fun p => decide (scoresPipe s.bird.x p)) := by
  have hf := (update_frame c now rPipe rFire rPow s h).2.2.1
  simp only at hf
  rw [hf]
  simp [afterObstacles, spawnPhase_eq, updateBird, visitedPipes]

theorem stepPipe_passed (bx : ℚ) (p : Pipe) :
    (stepPipe bx p).passed = (p.passed || decide (p.x - PIPE_SPEED < bx)) := by
  unfold stepPipe
  by_cases h : p.x - PIPE_SPEED < bx <;> cases hp : p.passed <;> simp [h, hp]

theorem stepPipe_x (bx : ℚ) (p : Pipe) : (stepPipe bx p).x = p.x - PIPE_SPEED := by
  unfold stepPipe
  dsimp only
  split <;> rfl

theorem stepPipe_gapY (bx : ℚ) (p : Pipe) : (stepPipe bx p).gapY = p.gapY := by
  unfold stepPipe
  dsimp only
  split <;> rfl

theorem update_bird_fields (c : Canvas) (now : ℤ) (rPipe rFire rPow : ℚ) (s : State)
    (h : Playing s) :
    (update c now rPipe rFire rPow s).bird.x = s.bird.x ∧
      (update c now rPipe rFire rPow s).bird.y = s.bird.y + (s.bird.velocity + GRAVITY) ∧
      (update c now rPipe rFire rPow s).bird.velocity = s.bird.velocity + GRAVITY ∧
      (update c now rPipe rFire rPow s).bird.rotation =
        max (-MAX_ROTATION) (min MAX_ROTATION ((s.bird.velocity + GRAVITY) * 2)) ∧
      (update c now rPipe rFire rPow s).bird.width = s.bird.width ∧
      (update c now rPipe rFire rPow s).bird.height = s.bird.height := by
  obtain ⟨-, -, -, -, -, -, -, -, hx, hy, hv, hr, hw, hh⟩ :=
    update_frame c now rPipe rFire rPow s h
  simp only [afterObstacles, spawnPhase_bird, updateBird] at hx hy hv hr hw hh
  exact ⟨hx, hy, hv, hr, hw, hh⟩

theorem update_eq_runLoops (c : Canvas) (now : ℤ) (rPipe rFire rPow : ℚ) (s : State)
    (h : Playing s) :
    update c now rPipe rFire rPow s = runLoops c now (spawnPhase c now rPipe rFire rPow s) :=
  update_of_playing c now rPipe rFire rPow s h

theorem update_fireballs (c : Canvas) (now : ℤ) (rPipe rFire rPow : ℚ) (s : State)
    (h : Playing s) :
    (update c now rPipe rFire rPow s).fireballs =
      ((s.fireballs ++ (if now - s.lastFireballTime > 2000 then [newFireball c rFire] else [])).map
        stepFireball).filter (fun f => !decide (fireballGone f)) := by
  have hf := (update_frame c now rPipe rFire rPow s h).2.1
  simp only at hf
  rw [hf]
  simp [afterObstacles, spawnPhase_eq]

theorem update_timers (c : Canvas) (now : ℤ) (rPipe rFire rPow : ℚ) (s : State)
    (h : Playing s) :
    (update c now rPipe rFire rPow s).lastPipeTime =
        (if now - s.lastPipeTime > 1500 then now else s.lastPipeTime) ∧
      (update c now rPipe rFire rPow s).lastFireballTime =
        (if now - s.lastFireballTime > 2000 then now else s.lastFireballTime) ∧
      (update c now rPipe rFire rPow s).lastPowerupTime =
        (if now - s.lastPowerupTime > 8000 then now else s.lastPowerupTime) ∧
      (update c now rPipe rFire rPow s).gameStarted = true := by
  obtain ⟨-, -, -, -, h5, h6, h7, h8, -⟩ := update_frame c now rPipe rFire rPow s h
  simp only [afterObstacles, spawnPhase_eq] at h5 h6 h7 h8
  exact ⟨h6, h7, h8, h5.trans h.1⟩
theorem scored_pipe (bx : ℚ) (hbx : -PIPE_WIDTH ≤ bx) (n : ℕ) (p : Pipe) :
    (if scoresPipe bx p then 1 else 0) +
        (if ¬ pipeGone (stepPipe bx p) ∧ hasScored bx (stepPipe bx p, n) then 1 else 0) =
      (if hasScored bx (p, n + 1) then 1 else 0) := by
  have hn : (0 : ℚ) ≤ (n : ℚ) := Nat.cast_nonneg n
  unfold PIPE_WIDTH at hbx
  by_cases hp : p.passed = true
  · have h1 : ¬ scoresPipe bx p := by simp [scoresPipe, hp]
    have h2 : ¬ hasScored bx (stepPipe bx p, n) := by simp [hasScored, stepPipe_passed, hp]
    have h3 : ¬ hasScored bx (p, n + 1) := by simp [hasScored, hp]
    simp [h1, h2, h3]
  · have hp' : p.passed = false := by simpa using hp
    by_cases hlt : p.x - PIPE_SPEED < bx
    · have h1 : scoresPipe bx p := ⟨hp', hlt⟩
      have h2 : ¬ hasScored bx (stepPipe bx p, n) := by simp [hasScored, stepPipe_passed, hlt]
      have h3 : hasScored bx (p, n + 1) := by
        refine ⟨hp', Nat.le_add_left 1 n, ?_⟩
        unfold PIPE_SPEED at *
        push_cast
        linarith
      simp [h1, h2, h3]
    · have h1 : ¬ scoresPipe bx p := fun h => hlt h.2
      have hg : ¬ pipeGone (stepPipe bx p) := by
        unfold pipeGone PIPE_WIDTH
        rw [stepPipe_x]
        linarith
      have h23 : hasScored bx (stepPipe bx p, n) ↔ hasScored bx (p, n + 1) := by
        unfold hasScored
        simp only [stepPipe_passed, stepPipe_x, hp', hlt, decide_False, Bool.or_self, true_and]
        unfold PIPE_SPEED at *
        constructor
        · rintro ⟨-, h⟩
          refine ⟨Nat.le_add_left 1 n, ?_⟩
          push_cast
          linarith
        · rintro ⟨-, h⟩
          push_cast at h
          refine ⟨?_, by linarith⟩
          rcases Nat.eq_zero_or_pos n with h0 | h0
          · subst h0
            exfalso
            apply hlt
            simp at h
            linarith
          · exact h0
      by_cases h3 : hasScored bx (p, n + 1)
      · simp [h1, hg, h23.mpr h3, h3]
      · have h2 : ¬ hasScored bx (stepPipe bx p, n) := fun h => h3 (h23.mp h)
        simp [h1, h3, h2]

theorem scored_step (bx : ℚ) (hbx : -PIPE_WIDTH ≤ bx) (n : ℕ) (L : List Pipe) :
    L.countP (fun p => decide (scoresPipe bx p)) +
        ((L.map (stepPipe bx)).filter (fun p => !decide (pipeGone p))).countP
          (fun p => decide (hasScored bx (p, n))) =
      L.countP (fun p => decide (hasScored bx (p, n + 1))) := by
  induction L with
  | nil => simp
  | cons p t ih =>
    have hp := scored_pipe bx hbx n p
    simp only [List.map_cons, List.countP_cons, List.filter_cons]
    by_cases hg : pipeGone (stepPipe bx p)
    · simp only [hg, not_true_eq_false, false_and, if_false] at hp
      simp only [hg, decide_True, Bool.not_true, Bool.false_eq_true, if_false]
      by_cases h1 : scoresPipe bx p <;> by_cases h3 : hasScored bx (p, n + 1) <;>
        simp only [h1, h3, decide_True, decide_False, if_true, if_false, Bool.false_eq_true] at hp ⊢ <;>
        omega
    · simp only [hg, not_false_eq_true, true_and] at hp
      simp only [hg, decide_False, Bool.not_false, if_true, List.countP_cons]
      by_cases h1 : scoresPipe bx p <;> by_cases h2 : hasScored bx (stepPipe bx p, n) <;>
        by_cases h3 : hasScored bx (p, n + 1) <;>
        simp only [h1, h2, h3, decide_True, decide_False, if_true, if_false, Bool.false_eq_true] at hp ⊢ <;>
        omega

theorem handleInput_of_not_over (c : Canvas) (now : ℤ) (s : State) (h : s.gameOver = false) :
    handleInput c now s =
      { s with gameStarted := true, bird := { s.bird with velocity := FLAP_STRENGTH } } := by
  cases hs : s.gameStarted <;> simp [handleInput, h, hs]

theorem handleInput_twice_of_not_over (c : Canvas) (t1 t2 : ℤ) (s : State)
    (h : s.gameOver = false) :
    handleInput c t2 (handleInput c t1 s) = handleInput c t1 s := by
  have h1 : (handleInput c t1 s).gameOver = false := by
    rw [handleInput_of_not_over c t1 s h]; exact h
  rw [handleInput_of_not_over c t2 _ h1, handleInput_of_not_over c t1 s h]

theorem run_inputs_of_not_over (c : Canvas) (ts : List ℤ) : ∀ (t : ℤ) (s : State),
    s.gameOver = false → run c ((t :: ts).map Event.input) s = handleInput c t s := by
  induction ts with
  | nil => intro t s _; rfl
  | cons t2 ts ih =>
    intro t s h
    have h1 : (handleInput c t s).gameOver = false := by
      rw [handleInput_of_not_over c t s h]; exact h
    have := ih t2 (handleInput c t s) h1
    simp only [List.map_cons, run, step] at this ⊢
    rw [this, handleInput_twice_of_not_over c t t2 s h]

/-- The position `createFireball` really draws: `r * (canvas.height - 50)`, for a fireball that
is 30 high; on a field at least 50 high it stays at least 20 above the floor. -/
theorem createFireball_range (c : Canvas) (r : ℚ) (s : State) (h0 : 0 ≤ r) (h1 : r < 1)
    (hH : 50 ≤ c.height) :
    (createFireball c r s).fireballs = s.fireballs ++ [newFireball c r] ∧
      (newFireball c r).y = r * ((c.height : ℚ) - 50) ∧
      0 ≤ (newFireball c r).y ∧ (newFireball c r).y + (newFireball c r).height ≤ (c.height : ℚ) - 20 := by
  have hH' : (50 : ℚ) ≤ (c.height : ℚ) := by exact_mod_cast hH
  refine ⟨rfl, rfl, ?_, ?_⟩
  · simp only [newFireball]
    exact mul_nonneg h0 (by linarith)
  · simp only [newFireball]
    nlinarith
theorem hitsPowerup_flag (b : Bird) (f : Bool) :
    (fun p : Powerup => decide (hitsPowerup { b with isInvincible := f } p)) =
      (fun p : Powerup => decide (hitsPowerup b p)) := rfl

theorem powerupsLoop_split (now : ℤ) (pre : List Powerup) : ∀ (post : List Powerup) (s : State),
    s.powerups = pre ++ post →
    (∀ p ∈ pre, p.collected = false) →
    (∀ p ∈ pre, ¬ (powerupGone (stepPowerup p) ∧ hitsPowerup s.bird (stepPowerup p))) →
    powerupsLoop now pre.length s =
      { s with
        powerups := (pre.map stepPowerup).filter
            (fun p => !decide (powerupGone p) && !decide (hitsPowerup s.bird p)) ++ post
        bird := { s.bird with
          isInvincible := s.bird.isInvincible ||
            pre.any (fun p => decide (hitsPowerup s.bird (stepPowerup p))) }
        timers := s.timers ++
          List.replicate (pre.countP (fun p => decide (hitsPowerup s.bird (stepPowerup p))))
            (now + INVINCIBILITY_DURATION) } := by
  induction pre using List.reverseRecOn with
  | nil =>
    intro post s h _ _
    cases s
    simp_all [powerupsLoop]
  | append_singleton l a ih =>
    intro post s h hc hno
    have hlen : (l ++ [a]).length = l.length + 1 := by simp
    have hp : s.powerups = l ++ a :: post := by simp [h]
    have hca : a.collected = false := hc a (by simp)
    have hcl : ∀ p ∈ l, p.collected = false := fun p hp => hc p (by simp [hp])
    have hnoa := hno a (by simp)
    have hnol : ∀ p ∈ l, ¬ (powerupGone (stepPowerup p) ∧ hitsPowerup s.bird (stepPowerup p)) :=
      fun p hp => hno p (by simp [hp])
    rw [hlen, powerupsLoop, hp, getElem?_mid]
    by_cases hh : hitsPowerup s.bird (stepPowerup a)
    · have hg : ¬ powerupGone (stepPowerup a) := fun g => hnoa ⟨g, hh⟩
      have hh' : overlaps s.bird (a.x - POWERUP_SPEED) a.y a.width a.height := hh
      have hg' : ¬ a.x - POWERUP_SPEED < -a.width := hg
      simp only [hca, hh', hg', and_self, if_true, if_false, set_mid, eraseIdx_mid,
        activatePowerup]
      refine Eq.trans (ih post _ rfl hcl hnol) ?_
      simp [hh, hg, List.filter_append, List.countP_append, List.replicate_succ',
        hitsPowerup_flag]
      exact ⟨rfl, (List.replicate_succ _ _).symm.trans (List.replicate_succ' _ _)⟩
    · have hh' : ¬ overlaps s.bird (a.x - POWERUP_SPEED) a.y a.width a.height := hh
      simp only [hh', and_false, if_false, set_mid, eraseIdx_mid]
      by_cases hg : powerupGone (stepPowerup a)
      · have hg' : a.x - POWERUP_SPEED < -a.width := hg
        simp only [hg', if_true]
        refine Eq.trans (ih post _ rfl hcl hnol) ?_
        simp [hh, hg, List.filter_append, List.countP_append]
      · have hg' : ¬ a.x - POWERUP_SPEED < -a.width := hg
        simp only [hg', if_false]
        refine Eq.trans (ih (stepPowerup a :: post) _ rfl hcl hnol) ?_
        simp [hh, hg, List.filter_append, List.countP_append]
theorem hit_powerup_not_gone (b : Bird) (p : Powerup) (hx : 0 ≤ b.x) (h : hitsPowerup b p) :
    ¬ powerupGone p := by
  unfold hitsPowerup overlaps at h
  unfold powerupGone
  have := h.2.1
  intro hg
  linarith

theorem update_powerups (c : Canvas) (now : ℤ) (rPipe rFire rPow : ℚ) (s : State)
    (h : Playing s) (hx : 0 ≤ s.bird.x) (hc : ∀ p ∈ s.powerups, p.collected = false) :
    (update c now rPipe rFire rPow s).powerups =
        ((visitedPowerups c now rPow s).map stepPowerup).filter
          (fun p => !decide (powerupGone p) && !decide (hitsPowerup (updateBird s).bird p)) ∧
      (update c now rPipe rFire rPow s).timers =
        s.timers ++ List.replicate
          ((visitedPowerups c now rPow s).countP
            (fun p => decide (hitsPowerup (updateBird s).bird (stepPowerup p))))
          (now + INVINCIBILITY_DURATION) ∧
      (update c now rPipe rFire rPow s).bird.isInvincible =
        (s.bird.isInvincible ||
          (visitedPowerups c now rPow s).any
            (fun p => decide (hitsPowerup (updateBird s).bird (stepPowerup p)))) := by
  rw [update_eq c now rPipe rFire rPow s h]
  have hL : (afterObstacles (spawnPhase c now rPipe rFire rPow s)).powerups =
      visitedPowerups c now rPow s ++ [] := by
    simp [afterObstacles, spawnPhase_eq, visitedPowerups]
  have hb : (afterObstacles (spawnPhase c now rPipe rFire rPow s)).bird = (updateBird s).bird := by
    simp [afterObstacles, spawnPhase_bird]
  have hcl : ∀ p ∈ visitedPowerups c now rPow s, p.collected = false := by
    intro p hp
    unfold visitedPowerups at hp
    rcases List.mem_append.mp hp with hp | hp
    · exact hc p hp
    · by_cases hs : now - s.lastPowerupTime > 8000
      · simp only [hs, if_true, List.mem_singleton] at hp
        rw [hp]; rfl
      · simp [hs] at hp
  have hbx : 0 ≤ (updateBird s).bird.x := by simpa [updateBird] using hx
  have hno : ∀ p ∈ visitedPowerups c now rPow s,
      ¬ (powerupGone (stepPowerup p) ∧
        hitsPowerup (afterObstacles (spawnPhase c now rPipe rFire rPow s)).bird (stepPowerup p)) := by
    intro p _ hboth
    rw [hb] at hboth
    exact hit_powerup_not_gone _ _ hbx hboth.2 hboth.1
  have hlen : (afterObstacles (spawnPhase c now rPipe rFire rPow s)).powerups.length =
      (visitedPowerups c now rPow s).length := by rw [hL]; simp
  rw [hlen, powerupsLoop_split now (visitedPowerups c now rPow s) [] _ hL hcl hno, hb]
  have ht : (afterObstacles (spawnPhase c now rPipe rFire rPow s)).timers = s.timers := by
    simp [afterObstacles, spawnPhase_eq]
  have hi : (updateBird s).bird.isInvincible = s.bird.isInvincible := by simp [updateBird]
  unfold checkBoundaries
  split <;> simp [ht, hi]

theorem stepPipe_eq_scroll_mark (bx : ℚ) (p : Pipe) :
    stepPipe bx p = { markPassed bx p with x := (markPassed bx p).x - PIPE_SPEED } := by
  have h1 := stepPipe_x bx p
  have h2 := stepPipe_gapY bx p
  have h3 := stepPipe_passed bx p
  cases hs : stepPipe bx p with
  | mk x g ps =>
    rw [hs] at h1 h2 h3
    simp only at h1 h2 h3
    simp [markPassed, h1, h2, h3]

theorem scroll_positions_ignore_marks (bx : ℚ) (L : List Pipe) :
    (scrollThenDropPipes (L.map (markPassed bx))).map (fun p => (p.x, p.gapY)) =
      (scrollThenDropPipes L).map (fun p => (p.x, p.gapY)) := by
  unfold scrollThenDropPipes
  induction L with
  | nil => rfl
  | cons p t ih =>
    simp only [List.map_cons, List.filter_cons]
    by_cases hg : p.x - PIPE_SPEED < -PIPE_WIDTH
    · simp only [markPassed, hg, decide_True, Bool.not_true, Bool.false_eq_true, if_false]
      exact ih
    · simp only [markPassed, hg, decide_False, Bool.not_false, if_true, List.map_cons]
      rw [ih]
theorem powerupsLoop_timers (now : ℤ) (n : ℕ) : ∀ s : State,
    ∃ k : ℕ,
      (powerupsLoop now n s).timers =
          s.timers ++ List.replicate k (now + INVINCIBILITY_DURATION) ∧
        (powerupsLoop now n s).bird.isInvincible = (s.bird.isInvincible || decide (0 < k)) := by
  induction n with
  | zero => intro s; exact ⟨0, by simp [powerupsLoop]⟩
  | succ i ih =>
    intro s
    have step0 : ∀ s' : State, s'.timers = s.timers →
        s'.bird.isInvincible = s.bird.isInvincible →
        ∃ k : ℕ,
          (powerupsLoop now i s').timers =
              s.timers ++ List.replicate k (now + INVINCIBILITY_DURATION) ∧
            (powerupsLoop now i s').bird.isInvincible =
              (s.bird.isInvincible || decide (0 < k)) := by
      intro s' h1 h2
      obtain ⟨k, hk1, hk2⟩ := ih s'
      exact ⟨k, by rw [hk1, h1], by rw [hk2, h2]⟩
    have step1 : ∀ s' : State, s'.timers = s.timers ++ [now + INVINCIBILITY_DURATION] →
        s'.bird.isInvincible = true →
        ∃ k : ℕ,
          (powerupsLoop now i s').timers =
              s.timers ++ List.replicate k (now + INVINCIBILITY_DURATION) ∧
            (powerupsLoop now i s').bird.isInvincible =
              (s.bird.isInvincible || decide (0 < k)) := by
      intro s' h1 h2
      obtain ⟨k, hk1, hk2⟩ := ih s'
      refine ⟨k + 1, ?_, ?_⟩
      · rw [hk1, h1, List.append_assoc, List.replicate_succ]
        rfl
      · rw [hk2, h2]
        simp
    rw [powerupsLoop]
    split
    · exact step0 s rfl rfl
    · dsimp only
      split
      · exact step1 _ rfl rfl
      · exact step0 _ rfl rfl

theorem update_queues (c : Canvas) (now : ℤ) (rPipe rFire rPow : ℚ) (s : State) :
    ∃ k : ℕ,
      (update c now rPipe rFire rPow s).timers =
          s.timers ++ List.replicate k (now + INVINCIBILITY_DURATION) ∧
        (update c now rPipe rFire rPow s).bird.isInvincible =
          (s.bird.isInvincible || decide (0 < k)) := by
  by_cases hp : Playing s
  · rw [update_eq c now rPipe rFire rPow s hp]
    obtain ⟨k, hk1, hk2⟩ := powerupsLoop_timers now
      (afterObstacles (spawnPhase c now rPipe rFire rPow s)).powerups.length
      (afterObstacles (spawnPhase c now rPipe rFire rPow s))
    have ht : (afterObstacles (spawnPhase c now rPipe rFire rPow s)).timers = s.timers := by
      simp [afterObstacles, spawnPhase_eq]
    have hb : (afterObstacles (spawnPhase c now rPipe rFire rPow s)).bird.isInvincible =
        s.bird.isInvincible := by
      simp [afterObstacles, spawnPhase_bird, updateBird]
    have hcb : ∀ t : State, (checkBoundaries c t).timers = t.timers ∧
        (checkBoundaries c t).bird = t.bird := by
      intro t; unfold checkBoundaries; split <;> exact ⟨rfl, rfl⟩
    refine ⟨k, ?_, ?_⟩
    · rw [(hcb _).1, hk1, ht]
    · rw [(hcb _).2, hk2, hb]
  · rw [update_of_not_playing c now rPipe rFire rPow s hp]
    exact ⟨0, by simp, by simp⟩

theorem update_flag_of_timers (c : Canvas) (now : ℤ) (rPipe rFire rPow : ℚ) (s : State)
    (h : (update c now rPipe rFire rPow s).timers = s.timers) :
    (update c now rPipe rFire rPow s).bird.isInvincible = s.bird.isInvincible := by
  by_cases hp : Playing s
  · rw [update_eq c now rPipe rFire rPow s hp] at h ⊢
    obtain ⟨k, hk1, hk2⟩ := powerupsLoop_timers now
      (afterObstacles (spawnPhase c now rPipe rFire rPow s)).powerups.length
      (afterObstacles (spawnPhase c now rPipe rFire rPow s))
    have ht : (afterObstacles (spawnPhase c now rPipe rFire rPow s)).timers = s.timers := by
      simp [afterObstacles, spawnPhase_eq]
    have hb : (afterObstacles (spawnPhase c now rPipe rFire rPow s)).bird.isInvincible =
        s.bird.isInvincible := by
      simp [afterObstacles, spawnPhase_bird, updateBird]
    have hcb : ∀ t : State, (checkBoundaries c t).timers = t.timers ∧
        (checkBoundaries c t).bird = t.bird := by
      intro t; unfold checkBoundaries; split <;> exact ⟨rfl, rfl⟩
    rw [(hcb _).1, hk1, ht] at h
    rw [(hcb _).2, hk2, hb]
    have hk0 : k = 0 := by
      have := congrArg List.length h
      simp only [List.length_append, List.length_replicate] at this
      omega
    simp [hk0]
  · rw [update_of_not_playing c now rPipe rFire rPow s hp]

theorem quiet_step_keeps (c : Canvas) (e : Event) (s : State) (hq : Quiet c e s)
    (hne : ∀ t, e ≠ Event.timeout t) :
    (step c e s).bird.isInvincible = s.bird.isInvincible ∧ (step c e s).timers = s.timers := by
  cases e with
  | frame now rPipe rFire rPow =>
    exact ⟨update_flag_of_timers c now rPipe rFire rPow s hq, hq⟩
  | input now =>
    have hq' : s.gameOver = false := hq
    simp only [step]
    rw [handleInput_of_not_over c now s hq']
    exact ⟨rfl, rfl⟩
  | timeout t => exact absurd rfl (hne t)

theorem runTimers_idle (now : ℤ) (s : State) (h : s.timers = []) : runTimers now s = s := by
  unfold runTimers
  simp [h]

theorem runTimers_pending (now due : ℤ) (k : ℕ) (s : State)
    (h : s.timers = List.replicate (k + 1) due) :
    (due ≤ now → (runTimers now s).bird.isInvincible = false ∧ (runTimers now s).timers = []) ∧
      (¬ due ≤ now → runTimers now s = s) := by
  have hany : (s.timers.any fun t => decide (t ≤ now)) = decide (due ≤ now) := by
    rw [h]
    by_cases hd : due ≤ now
    · simp [List.any_eq_true, hd]
    · simp [hd]
  unfold runTimers
  constructor
  · intro hd
    rw [hany]
    simp only [hd, decide_True, if_true, true_and]
    rw [h, List.filter_eq_nil_iff]
    intro a ha
    rw [List.eq_of_mem_replicate ha]
    simp [hd]
  · intro hd
    rw [hany]
    simp [hd]

theorem quiet_run_idle (c : Canvas) (evs : List Event) : ∀ s : State,
    s.bird.isInvincible = false → s.timers = [] → QuietRun c evs s →
    (run c evs s).bird.isInvincible = false ∧ (run c evs s).timers = [] := by
  induction evs with
  | nil => intro s h1 h2 _; exact ⟨h1, h2⟩
  | cons e es ih =>
    intro s h1 h2 hq
    obtain ⟨hq1, hq2⟩ := hq
    simp only [run]
    by_cases hto : ∃ t, e = Event.timeout t
    · obtain ⟨t, rfl⟩ := hto
      have : step c (Event.timeout t) s = s := runTimers_idle t s h2
      rw [this] at hq2 ⊢
      exact ih s h1 h2 hq2
    · have hk := quiet_step_keeps c e s hq1 (fun t ht => hto ⟨t, ht⟩)
      exact ih _ (hk.1.trans h1) (hk.2.trans h2) hq2

theorem quiet_run_pending (c : Canvas) (due : ℤ) (k : ℕ) (evs : List Event) : ∀ s : State,
    s.bird.isInvincible = true → s.timers = List.replicate (k + 1) due → QuietRun c evs s →
    ((run c evs s).bird.isInvincible = true ∧
        (run c evs s).timers = List.replicate (k + 1) due ∧
        ∀ t, Event.timeout t ∈ evs → t < due) ∨
      ((run c evs s).bird.isInvincible = false ∧ (run c evs s).timers = [] ∧
        ∃ t, Event.timeout t ∈ evs ∧ due ≤ t) := by
  induction evs with
  | nil => intro s h1 h2 _; exact Or.inl ⟨h1, h2, by simp⟩
  | cons e es ih =>
    intro s h1 h2 hq
    obtain ⟨hq1, hq2⟩ := hq
    simp only [run]
    by_cases hto : ∃ t, e = Event.timeout t
    · obtain ⟨t, rfl⟩ := hto
      by_cases hd : due ≤ t
      · obtain ⟨g1, g2⟩ := (runTimers_pending t due k s h2).1 hd
        obtain ⟨i1, i2⟩ := quiet_run_idle c es (step c (Event.timeout t) s) g1 g2 hq2
        exact Or.inr ⟨i1, i2, t, by simp, hd⟩
      · have hs : step c (Event.timeout t) s = s := (runTimers_pending t due k s h2).2 hd
        rw [hs] at hq2 ⊢
        rcases ih s h1 h2 hq2 with ⟨a1, a2, a3⟩ | ⟨b1, b2, t', b3, b4⟩
        · refine Or.inl ⟨a1, a2, ?_⟩
          intro t' ht'
          rcases List.mem_cons.mp ht' with ht' | ht'
          · cases ht'; omega
          · exact a3 t' ht'
        · exact Or.inr ⟨b1, b2, t', List.mem_cons_of_mem _ b3, b4⟩
    · have hk := quiet_step_keeps c e s hq1 (fun t ht => hto ⟨t, ht⟩)
      rcases ih _ (hk.1.trans h1) (hk.2.trans h2) hq2 with ⟨a1, a2, a3⟩ | ⟨b1, b2, t', b3, b4⟩
      · refine Or.inl ⟨a1, a2, ?_⟩
        intro t' ht'
        rcases List.mem_cons.mp ht' with ht' | ht'
        · exact absurd ht'.symm (fun h => hto ⟨t', h⟩)
        · exact a3 t' ht'
      · exact Or.inr ⟨b1, b2, t', List.mem_cons_of_mem _ b3, b4⟩

theorem stale_timeout_clears_flag (T1 T2 now : ℤ) (s : State) (h0 : s.timers = [])
    (h12 : T1 < T2) :
    (runTimers now (activatePowerup T2 (activatePowerup T1 s))).bird.isInvincible =
      decide (now < T1 + INVINCIBILITY_DURATION) := by
  unfold runTimers activatePowerup
  by_cases h1 : T1 + INVINCIBILITY_DURATION ≤ now
  · have h1' : ¬ now < T1 + INVINCIBILITY_DURATION := by omega
    simp [h0, h1, h1']
  · have h2 : ¬ T2 + INVINCIBILITY_DURATION ≤ now := by omega
    have h1' : now < T1 + INVINCIBILITY_DURATION := by omega
    simp [h0, h1, h2, h1']

/-! ## The claims -/

/-- C1. Boundary rule: in a playing state, if after the physics step of `update` the bird's top
is above 0 or its bottom is below the field height, then `gameOver` is true when `update`
returns, whatever `bird.isInvincible` is.  The position tested is the one `update` leaves in
the state. -/
theorem boundary_ends_game (c : Canvas) (now : ℤ) (rPipe rFire rPow : ℚ) (s : State)
    (hplay : Playing s)
    (hout : s.bird.y + (s.bird.velocity + GRAVITY) < 0 ∨
      s.bird.y + (s.bird.velocity + GRAVITY) + s.bird.height > (c.height : ℚ)) :
    (update c now rPipe rFire rPow s).gameOver = true ∧
      (update c now rPipe rFire rPow s).bird.y = s.bird.y + (s.bird.velocity + GRAVITY) ∧
      (update c now rPipe rFire rPow s).bird.height = s.bird.height := by
  have hf := update_frame c now rPipe rFire rPow s hplay
  obtain ⟨-, -, -, -, -, -, -, -, -, hy, -, -, -, hh⟩ := hf
  refine ⟨?_, ?_, ?_⟩
  · rw [update_gameOver c now rPipe rFire rPow s hplay]
    have : (updateBird s).bird.y < 0 ∨
        (updateBird s).bird.y + (updateBird s).bird.height > (c.height : ℚ) := hout
    simp [this]
  · simpa [afterObstacles, spawnPhase_bird, updateBird] using hy
  · simpa [afterObstacles, spawnPhase_bird, updateBird] using hh

/-- Witness for C1: height 30, field height 600, y = 575, velocity 10, invincible. -/
theorem boundary_ends_game_witness :
    Playing boundaryState ∧ boundaryState.bird.height = 30 ∧ boundaryState.bird.y = 575 ∧
      boundaryState.bird.isInvincible = true ∧
      (update ⟨400, 600⟩ 0 0 0 0 boundaryState).gameOver = true :=
  ⟨by simp [Playing, boundaryState, initialState], rfl, rfl, rfl,
    (boundary_ends_game ⟨400, 600⟩ 0 0 0 0 boundaryState
      (by simp [Playing, boundaryState, initialState])
      (Or.inr (by norm_num [boundaryState, initialState, GRAVITY]))).1⟩

/-- C2. Invincibility suppresses pipe and fireball collisions: in a playing state with
`bird.isInvincible` set, whatever pipes and fireballs are present, if the bird stays inside
the field vertically after the physics step, `gameOver` is still false after `update`. -/
theorem invincible_survives_obstacles (c : Canvas) (now : ℤ) (rPipe rFire rPow : ℚ) (s : State)
    (hplay : Playing s) (hinv : s.bird.isInvincible = true)
    (htop : 0 ≤ s.bird.y + (s.bird.velocity + GRAVITY))
    (hbot : s.bird.y + (s.bird.velocity + GRAVITY) + s.bird.height ≤ (c.height : ℚ)) :
    (update c now rPipe rFire rPow s).gameOver = false := by
  rw [update_gameOver c now rPipe rFire rPow s hplay]
  have h1 : ¬ ((updateBird s).bird.y < 0 ∨
      (updateBird s).bird.y + (updateBird s).bird.height > (c.height : ℚ)) := by
    intro h
    rcases h with h | h
    · exact absurd htop (not_le.mpr h)
    · exact absurd hbot (not_le.mpr h)
  have h2 : (afterObstacles (spawnPhase c now rPipe rFire rPow s)).gameOver = false := by
    simp [afterObstacles, spawnPhase_eq, updateBird, hinv, hplay.2]
  simp [h1, h2]

/-- Witness for C2: the invincible bird of `overlapState true` overlaps a pipe wall and a
fireball and the game goes on. -/
theorem invincible_survives_obstacles_witness :
    Playing (overlapState true) ∧ (overlapState true).bird.isInvincible = true ∧
      (update ⟨400, 600⟩ 0 0 0 0 (overlapState true)).gameOver = false :=
  ⟨by simp [Playing, overlapState, initialState], rfl,
    invincible_survives_obstacles ⟨400, 600⟩ 0 0 0 0 (overlapState true)
      (by simp [Playing, overlapState, initialState]) rfl
      (by norm_num [overlapState, initialState, GRAVITY])
      (by norm_num [overlapState, initialState, GRAVITY])⟩

/-- C3. Characterisation of game over for a playing, not invincible bird with `bird.x ≥ 0`:
after `update`, `gameOver` holds exactly when the bird has left the field vertically, or a pipe
still in the list overlaps it horizontally while the bird is not inside the gap band, or a
fireball still in the list overlaps it as a box. -/
theorem game_over_iff (c : Canvas) (now : ℤ) (rPipe rFire rPow : ℚ) (s : State)
    (hplay : Playing s) (hinv : s.bird.isInvincible = false) (hx : 0 ≤ s.bird.x) :
    (update c now rPipe rFire rPow s).gameOver = true ↔
      ((update c now rPipe rFire rPow s).bird.y < 0 ∨
        (update c now rPipe rFire rPow s).bird.y + (update c now rPipe rFire rPow s).bird.height
          > (c.height : ℚ)) ∨
      (∃ p ∈ (update c now rPipe rFire rPow s).pipes,
        ((update c now rPipe rFire rPow s).bird.x + (update c now rPipe rFire rPow s).bird.width
            > p.x ∧
          (update c now rPipe rFire rPow s).bird.x < p.x + PIPE_WIDTH) ∧
        ((update c now rPipe rFire rPow s).bird.y < p.gapY - PIPE_GAP / 2 ∨
          (update c now rPipe rFire rPow s).bird.y + (update c now rPipe rFire rPow s).bird.height
            > p.gapY + PIPE_GAP / 2)) ∨
      (∃ f ∈ (update c now rPipe rFire rPow s).fireballs,
        (update c now rPipe rFire rPow s).bird.x + (update c now rPipe rFire rPow s).bird.width
            > f.x ∧
          (update c now rPipe rFire rPow s).bird.x < f.x + f.width ∧
          (update c now rPipe rFire rPow s).bird.y + (update c now rPipe rFire rPow s).bird.height
            > f.y ∧
          (update c now rPipe rFire rPow s).bird.y < f.y + f.height) := by
  have hf := update_frame c now rPipe rFire rPow s hplay
  obtain ⟨hp, hfb, -, -, -, -, -, -, hbx, hby, -, -, hbw, hbh⟩ := hf
  have hgo := update_gameOver c now rPipe rFire rPow s hplay
  have htb := spawnPhase_bird c now rPipe rFire rPow s
  have htg : (spawnPhase c now rPipe rFire rPow s).gameOver = false := by
    simp [spawnPhase_eq, hplay.2]
  rw [← htb] at hgo
  have hbx0 : 0 ≤ (spawnPhase c now rPipe rFire rPow s).bird.x := by
    rw [htb]; simpa [updateBird] using hx
  have hbi : (spawnPhase c now rPipe rFire rPow s).bird.isInvincible = false := by
    rw [htb]; simpa [updateBird] using hinv
  generalize update c now rPipe rFire rPow s = s' at *
  generalize spawnPhase c now rPipe rFire rPow s = t at *
  simp only [afterObstacles] at hp hfb hbx hby hbw hbh hgo
  rw [hbx, hby, hbw, hbh, hp, hfb, hgo, htg, hbi]
  simp only [Bool.false_or, Bool.not_false, Bool.true_and, Bool.or_eq_true, decide_eq_true_eq,
    List.any_eq_true, List.mem_filter, List.mem_map, Bool.not_eq_true', decide_eq_false_iff_not]
  constructor
  · rintro (h | ⟨p, hp1, hp2⟩ | ⟨f, hf1, hf2⟩)
    · exact Or.inl h
    · exact Or.inr (Or.inl ⟨stepPipe t.bird.x p, ⟨⟨p, hp1, rfl⟩, hit_pipe_not_gone _ _ hbx0 hp2⟩, hp2⟩)
    · exact Or.inr (Or.inr ⟨stepFireball f, ⟨⟨f, hf1, rfl⟩, hit_fireball_not_gone _ _ hbx0 hf2⟩, hf2⟩)
  · rintro (h | ⟨p, ⟨⟨q, hq1, rfl⟩, -⟩, hp2⟩ | ⟨f, ⟨⟨g, hg1, rfl⟩, -⟩, hf2⟩)
    · exact Or.inl h
    · exact Or.inr (Or.inl ⟨q, hq1, hp2⟩)
    · exact Or.inr (Or.inr ⟨g, hg1, hf2⟩)

/-- Witness for C3: the bird of `overlapState false`. -/
theorem game_over_iff_witness :
    Playing (overlapState false) ∧ (overlapState false).bird.isInvincible = false ∧
      (0 : ℚ) ≤ (overlapState false).bird.x ∧
      (∃ p ∈ (update ⟨400, 600⟩ 0 0 0 0 (overlapState false)).pipes, p.x = 108) ∧
      (update ⟨400, 600⟩ 0 0 0 0 (overlapState false)).gameOver = true := by
  have hplay : Playing (overlapState false) := by simp [Playing, overlapState, initialState]
  have hx : (0 : ℚ) ≤ (overlapState false).bird.x := by norm_num [overlapState, initialState]
  have hp : (update ⟨400, 600⟩ 0 0 0 0 (overlapState false)).pipes =
      [{ x := 108, gapY := 100, passed := false }] := by
    rw [update_pipes _ _ _ _ _ _ hplay]
    norm_num [visitedPipes, overlapState, initialState, stepPipe, pipeGone, PIPE_SPEED, PIPE_WIDTH]
  refine ⟨hplay, rfl, hx, ⟨_, by rw [hp]; exact List.mem_singleton_self _, rfl⟩, ?_⟩
  refine (game_over_iff ⟨400, 600⟩ 0 0 0 0 (overlapState false) hplay rfl hx).mpr ?_
  refine Or.inr (Or.inl ⟨{ x := 108, gapY := 100, passed := false }, ?_, ?_⟩)
  · rw [hp]; exact List.mem_singleton_self _
  · obtain ⟨h1, h2, -, -, h5, h6⟩ := update_bird_fields ⟨400, 600⟩ 0 0 0 0 (overlapState false) hplay
    rw [h1, h2, h5, h6]
    norm_num [overlapState, initialState, PIPE_WIDTH, PIPE_GAP, GRAVITY]

/-- C4. Each pipe scores exactly once.  In a playing tick the pipe loop walks over
`visitedPipes` and turns each pipe `p` into `stepPipe bird.x p`, keeping those still on screen.
The score grows by the number of walked pipes whose `passed` flag goes from false to true; a
flag that is true stays true (and such a pipe is not counted); so the score does not decrease.
`resetGame` sets the score to 0, and an input in a playing state leaves it alone. -/
theorem score_counts_newly_passed (c : Canvas) (now : ℤ) (rPipe rFire rPow : ℚ) (s : State)
    (hplay : Playing s) :
    (update c now rPipe rFire rPow s).pipes =
        ((visitedPipes c now rPipe s).map (stepPipe s.bird.x)).filter
          (fun p => !decide (p.x < -PIPE_WIDTH)) ∧
      (update c now rPipe rFire rPow s).score =
        s.score + (visitedPipes c now rPipe s).countP
          (fun p => !p.passed && (stepPipe s.bird.x p).passed) ∧
      (∀ p : Pipe, p.passed = true → (stepPipe s.bird.x p).passed = true) ∧
      (∀ t : State, t.score ≤ (update c now rPipe rFire rPow t).score) ∧
      (resetGame c now s).score = 0 ∧
      (handleInput c now s).score = s.score := by
  refine ⟨update_pipes c now rPipe rFire rPow s hplay, ?_, ?_, ?_, rfl, ?_⟩
  · rw [update_score c now rPipe rFire rPow s hplay]
    congr 2
    funext p
    rw [stepPipe_passed]
    unfold scoresPipe
    by_cases hp : p.passed = true <;> simp [hp]
  · intro p hp
    rw [stepPipe_passed, hp]
    rfl
  · intro t
    by_cases ht : Playing t
    · rw [update_score c now rPipe rFire rPow t ht]
      exact Nat.le_add_right _ _
    · rw [update_of_not_playing c now rPipe rFire rPow t ht]
  · obtain ⟨h1, h2⟩ := hplay
    simp [handleInput, h1, h2]

/-- Witness for C4: in `scoringState` exactly one flag flips and the score goes from 3 to 4. -/
theorem score_counts_newly_passed_witness :
    Playing scoringState ∧ scoringState.score = 3 ∧
      (update ⟨400, 600⟩ 0 0 0 0 scoringState).score = 4 := by
  have hplay : Playing scoringState := by simp [Playing, scoringState, initialState]
  refine ⟨hplay, rfl, ?_⟩
  rw [(score_counts_newly_passed ⟨400, 600⟩ 0 0 0 0 scoringState hplay).2.1]
  norm_num [visitedPipes, scoringState, initialState, stepPipe, PIPE_SPEED, List.countP_cons]
/-- C5, as stated, fails when a pipe lands exactly on `bird.x`: in `edgeState` the bird
(x = 100) has not reached the pipe (x = 102); after one `update` the pipe is at x = 100, so
`bird.x >= pipe.x` holds for the first time, and the score has not moved. -/
theorem no_score_on_equal_x :
    Playing edgeState ∧ edgeState.pipes = [{ x := 102, gapY := 300, passed := false }] ∧
      ¬ (edgeState.bird.x ≥ 102) ∧
      (update ⟨400, 600⟩ 0 0 0 0 edgeState).pipes = [{ x := 100, gapY := 300, passed := false }] ∧
      (update ⟨400, 600⟩ 0 0 0 0 edgeState).bird.x ≥ 100 ∧
      (update ⟨400, 600⟩ 0 0 0 0 edgeState).score = edgeState.score := by
  have hplay : Playing edgeState := by simp [Playing, edgeState, initialState]
  refine ⟨hplay, rfl, by norm_num [edgeState, initialState], ?_, ?_, ?_⟩
  · rw [update_pipes _ _ _ _ _ _ hplay]
    norm_num [visitedPipes, edgeState, initialState, stepPipe, pipeGone, PIPE_SPEED, PIPE_WIDTH]
  · rw [(update_bird_fields _ _ _ _ _ _ hplay).1]
    norm_num [edgeState, initialState]
  · rw [update_score _ _ _ _ _ _ hplay]
    norm_num [visitedPipes, edgeState, initialState, scoresPipe, PIPE_SPEED]

/-- C5, amended (strict comparison).  A pipe that has been scrolled `k` times since it was at
`x` sits at `x - PIPE_SPEED * k`.  Over any run of frames, inputs and timeouts that keeps the
game playing, the score gained is the number of pipes - those in the list at the start and
those spawned during the run - that were unpassed when first seen, have been scrolled at least
once, and now lie strictly left of `bird.x`.  That condition stays true once it is true, so
every pipe adds exactly 1, in the first frame at whose end `pipe.x < bird.x`, and never again.
`bird.x` is assumed not to be left of `-PIPE_WIDTH`, so that no pipe is spliced out before the
bird has passed it. -/
theorem scored_once_when_strictly_left (c : Canvas) (evs : List Event) (s : State)
    (hx : -PIPE_WIDTH ≤ s.bird.x)
    (hplay : ∀ k, k < evs.length → Playing (run c (evs.take k) s)) :
    (run c evs s).score =
      s.score + (s.pipes.map (fun p => (p, frames evs)) ++ births c evs s).countP
        (fun q => decide (q.1.passed = false ∧ 1 ≤ q.2 ∧
          q.1.x - PIPE_SPEED * (q.2 : ℚ) < s.bird.x)) := by
  change (run c evs s).score =
      s.score + (s.pipes.map (fun p => (p, frames evs)) ++ births c evs s).countP
        (fun q => decide (hasScored s.bird.x q))
  revert s
  induction evs with
  | nil =>
    intro s _ _
    simp [run, frames, births, hasScored, List.countP_map]
  | cons e es ih =>
    intro s hx hplay
    have hs : Playing s := by simpa [run] using hplay 0 (by simp)
    have hplay' : ∀ k, k < es.length → Playing (run c (es.take k) (step c e s)) := by
      intro k hk
      have := hplay (k + 1) (by simpa using hk)
      simpa [run] using this
    cases e with
    | frame now rPipe rFire rPow =>
      have hbx : (update c now rPipe rFire rPow s).bird.x = s.bird.x :=
        (update_bird_fields c now rPipe rFire rPow s hs).1
      have h := ih (update c now rPipe rFire rPow s) (by rw [hbx]; exact hx) hplay'
      simp only [run, step, frames, births]
      rw [h, hbx, update_score c now rPipe rFire rPow s hs,
        update_pipes c now rPipe rFire rPow s hs]
      have key := scored_step s.bird.x hx (frames es) (visitedPipes c now rPipe s)
      simp only [List.countP_append, List.countP_map, Function.comp_def]
      have hv : (visitedPipes c now rPipe s).countP
            (fun p => decide (hasScored s.bird.x (p, frames es + 1))) =
          s.pipes.countP (fun p => decide (hasScored s.bird.x (p, frames es + 1))) +
            (if Playing s ∧ now - s.lastPipeTime > 1500 then
              [(newPipe c rPipe, frames es + 1)] else []).countP
              (fun q => decide (hasScored s.bird.x q)) := by
        unfold visitedPipes
        rw [List.countP_append]
        by_cases hc : now - s.lastPipeTime > 1500 <;> simp [hs, hc, List.countP_cons]
      rw [hv] at key
      omega
    | input now =>
      have e1 : handleInput c now s = { s with bird := { s.bird with velocity := FLAP_STRENGTH } } := by
        simp [handleInput, hs.1, hs.2]
      have h := ih (handleInput c now s) (by rw [e1]; exact hx) hplay'
      simp only [run, step, frames, births]
      rw [h, e1]
    | timeout now =>
      have e1 : (runTimers now s).bird.x = s.bird.x ∧ (runTimers now s).pipes = s.pipes ∧
          (runTimers now s).score = s.score := by
        unfold runTimers
        split <;> simp
      have h := ih (runTimers now s) (by rw [e1.1]; exact hx) hplay'
      simp only [run, step, frames, births]
      rw [h, e1.1, e1.2.1, e1.2.2]


/-- Witness for C5: from `edgeState` the first frame leaves the score at 0 (pipe at x = 100,
bird at x = 100) and the second frame raises it to 1. -/
theorem scored_once_when_strictly_left_witness :
    (run ⟨400, 600⟩ [Event.frame 0 0 0 0] edgeState).score = 0 ∧
      (run ⟨400, 600⟩ [Event.frame 0 0 0 0, Event.frame 0 0 0 0] edgeState).score = 1 := by
  have hx : -PIPE_WIDTH ≤ edgeState.bird.x := by norm_num [edgeState, initialState, PIPE_WIDTH]
  have h0 : Playing edgeState := by simp [Playing, edgeState, initialState]
  have h1 : Playing (update ⟨400, 600⟩ 0 0 0 0 edgeState) := by
    norm_num [Playing, update, updateBird, generatePipes, generateFireballs, generatePowerups,
      pipesLoop, fireballsLoop, powerupsLoop, checkBoundaries, edgeState, initialState, GRAVITY,
      MAX_ROTATION, hitsPipe, PIPE_SPEED, PIPE_WIDTH, PIPE_GAP]
  constructor
  · rw [scored_once_when_strictly_left ⟨400, 600⟩ [Event.frame 0 0 0 0] edgeState hx
      (by intro k hk; rcases k with _ | k
          · exact h0
          · simp at hk)]
    norm_num [frames, births, edgeState, initialState, PIPE_SPEED]
  · rw [scored_once_when_strictly_left ⟨400, 600⟩ [Event.frame 0 0 0 0, Event.frame 0 0 0 0]
      edgeState hx
      (by intro k hk; rcases k with _ | _ | k
          · exact h0
          · exact h1
          · simp at hk; omega)]
    norm_num [frames, births, edgeState, initialState, PIPE_SPEED, update, updateBird,
      generatePipes, generateFireballs, generatePowerups, pipesLoop, fireballsLoop, powerupsLoop,
      checkBoundaries, GRAVITY, MAX_ROTATION, hitsPipe, PIPE_WIDTH, PIPE_GAP]

/-- C6. Per-tick physics: after `update` on a playing state with velocity `v` and position `y`,
the velocity is `v + GRAVITY`, the position is `y + (v + GRAVITY)`, the rotation is
`2 * (v + GRAVITY)` clamped to `[-MAX_ROTATION, MAX_ROTATION]` (so it lies in `[-25, 25]`), and
`bird.x`, `bird.width`, `bird.height` are unchanged. -/
theorem physics_step (c : Canvas) (now : ℤ) (rPipe rFire rPow : ℚ) (s : State)
    (hplay : Playing s) :
    (update c now rPipe rFire rPow s).bird.velocity = s.bird.velocity + GRAVITY ∧
      (update c now rPipe rFire rPow s).bird.y = s.bird.y + (s.bird.velocity + GRAVITY) ∧
      (update c now rPipe rFire rPow s).bird.rotation =
        max (-MAX_ROTATION) (min MAX_ROTATION (2 * (s.bird.velocity + GRAVITY))) ∧
      (-25 ≤ (update c now rPipe rFire rPow s).bird.rotation ∧
        (update c now rPipe rFire rPow s).bird.rotation ≤ 25) ∧
      (update c now rPipe rFire rPow s).bird.x = s.bird.x ∧
      (update c now rPipe rFire rPow s).bird.width = s.bird.width ∧
      (update c now rPipe rFire rPow s).bird.height = s.bird.height := by
  obtain ⟨hx, hy, hv, hr, hw, hh⟩ := update_bird_fields c now rPipe rFire rPow s hplay
  refine ⟨hv, hy, ?_, ⟨?_, ?_⟩, hx, hw, hh⟩
  · rw [hr, mul_comm]
  · rw [hr]
    exact le_trans (by norm_num [MAX_ROTATION]) (le_max_left _ _)
  · rw [hr]
    exact max_le (by norm_num [MAX_ROTATION]) (le_trans (min_le_left _ _) (by norm_num [MAX_ROTATION]))

/-- Witness for C6: `fallingState` (velocity 6, y = 200) after one tick. -/
theorem physics_step_witness :
    Playing fallingState ∧
      (update ⟨400, 600⟩ 0 0 0 0 fallingState).bird.velocity = 623 / 100 ∧
      (update ⟨400, 600⟩ 0 0 0 0 fallingState).bird.y = 20623 / 100 ∧
      (update ⟨400, 600⟩ 0 0 0 0 fallingState).bird.rotation = 623 / 50 := by
  have hplay : Playing fallingState := by simp [Playing, fallingState, initialState]
  obtain ⟨hv, hy, hr, -⟩ := physics_step ⟨400, 600⟩ 0 0 0 0 fallingState hplay
  refine ⟨hplay, ?_, ?_, ?_⟩
  · rw [hv]; norm_num [fallingState, initialState, GRAVITY]
  · rw [hy]; norm_num [fallingState, initialState, GRAVITY]
  · rw [hr]; norm_num [fallingState, initialState, GRAVITY, MAX_ROTATION]

/-- C7. Input handling as a state transition.  When the game is over, `handleInput` is a full
reset and leaves the game playing with velocity 0.  Otherwise it sets `bird.velocity` to
`FLAP_STRENGTH` (whatever it was), sets `gameStarted`, and changes nothing else. -/
theorem handleInput_transition (c : Canvas) (now : ℤ) (s : State) :
    (s.gameOver = true →
      handleInput c now s = resetGame c now s ∧ Playing (handleInput c now s) ∧
        (handleInput c now s).bird.velocity = 0) ∧
    (s.gameOver = false →
      handleInput c now s =
        { s with gameStarted := true, bird := { s.bird with velocity := FLAP_STRENGTH } } ∧
        Playing (handleInput c now s)) := by
  constructor
  · intro h
    cases hs : s.gameStarted <;> simp [handleInput, resetGame, Playing, h, hs]
  · intro h
    cases hs : s.gameStarted <;> simp [handleInput, Playing, h, hs]

/-- Witness for C7: an input on `crashedState` resets; an input on `fallingState` (velocity 6)
sets the velocity to -7. -/
theorem handleInput_transition_witness :
    crashedState.gameOver = true ∧
      handleInput ⟨400, 600⟩ 7000 crashedState = resetGame ⟨400, 600⟩ 7000 crashedState ∧
      (handleInput ⟨400, 600⟩ 7000 crashedState).score = 0 ∧
      fallingState.gameOver = false ∧ fallingState.bird.velocity = 6 ∧
      (handleInput ⟨400, 600⟩ 7000 fallingState).bird.velocity = -7 := by
  have h1 := (handleInput_transition ⟨400, 600⟩ 7000 crashedState).1 rfl
  have h2 := (handleInput_transition ⟨400, 600⟩ 7000 fallingState).2 rfl
  refine ⟨rfl, h1.1, ?_, rfl, rfl, ?_⟩
  · rw [h1.1]; rfl
  · rw [h2.1]; rfl
/-- C8, as stated, fails: after a reset at time 0, an input and one `update` at time 0 on a
400 x 600 field, the velocity is not `FLAP_STRENGTH` (it is -6.77) and the position is not the
start position plus `FLAP_STRENGTH`. -/
theorem flap_tick_gravity_applied :
    (update ⟨400, 600⟩ 0 0 0 0
        (handleInput ⟨400, 600⟩ 0 (resetGame ⟨400, 600⟩ 0 (initialState ⟨400, 600⟩)))).bird.velocity
      ≠ FLAP_STRENGTH ∧
    (update ⟨400, 600⟩ 0 0 0 0
        (handleInput ⟨400, 600⟩ 0 (resetGame ⟨400, 600⟩ 0 (initialState ⟨400, 600⟩)))).bird.y
      ≠ (resetGame ⟨400, 600⟩ 0 (initialState ⟨400, 600⟩)).bird.y + FLAP_STRENGTH := by
  have hplay : Playing (handleInput ⟨400, 600⟩ 0 (resetGame ⟨400, 600⟩ 0 (initialState ⟨400, 600⟩))) := by
    simp [Playing, handleInput, resetGame, initialState]
  obtain ⟨-, hy, hv, -⟩ := update_bird_fields ⟨400, 600⟩ 0 0 0 0 _ hplay
  rw [hv, hy]
  constructor <;> norm_num [handleInput, resetGame, initialState, FLAP_STRENGTH, GRAVITY]

/-- C8, amended.  From the state produced by a reset, an input followed by one `update` leaves
`bird.velocity = FLAP_STRENGTH + GRAVITY`: the input sets the velocity, `update` then adds
gravity as in every tick, and the position moves by that sum from the start height. -/
theorem flap_tick (c : Canvas) (t0 t1 now : ℤ) (rPipe rFire rPow : ℚ) (s : State) :
    (update c now rPipe rFire rPow (handleInput c t1 (resetGame c t0 s))).bird.velocity =
        FLAP_STRENGTH + GRAVITY ∧
      (update c now rPipe rFire rPow (handleInput c t1 (resetGame c t0 s))).bird.y =
        (resetGame c t0 s).bird.y + (FLAP_STRENGTH + GRAVITY) ∧
      (resetGame c t0 s).bird.y = (c.height : ℚ) / 2 := by
  have hplay : Playing (handleInput c t1 (resetGame c t0 s)) := by
    simp [Playing, handleInput, resetGame]
  obtain ⟨-, hy, hv, -⟩ := update_bird_fields c now rPipe rFire rPow _ hplay
  rw [hv, hy]
  refine ⟨?_, ?_, rfl⟩ <;> simp [handleInput, resetGame]

/-- C9. Spawn timers.  In a playing state `update` first runs the spawn checks and then only
the loops and the boundary check (`runLoops`, which create nothing).  The spawn checks push
exactly one new pipe when `now - lastPipeTime > 1500` and none otherwise, and `lastPipeTime`
becomes `now` exactly in that case; the same holds, each with its own timer, for fireballs
(2000) and powerups (8000).  The pipe and fireball lists `update` returns are those lists
scrolled and cleaned. -/
theorem spawn_timers (c : Canvas) (now : ℤ) (rPipe rFire rPow : ℚ) (s : State)
    (hplay : Playing s) :
    update c now rPipe rFire rPow s = runLoops c now (spawnPhase c now rPipe rFire rPow s) ∧
      (spawnPhase c now rPipe rFire rPow s).pipes =
        s.pipes ++ (if now - s.lastPipeTime > 1500 then [newPipe c rPipe] else []) ∧
      (spawnPhase c now rPipe rFire rPow s).fireballs =
        s.fireballs ++ (if now - s.lastFireballTime > 2000 then [newFireball c rFire] else []) ∧
      (spawnPhase c now rPipe rFire rPow s).powerups =
        s.powerups ++ (if now - s.lastPowerupTime > 8000 then [newPowerup c rPow] else []) ∧
      (update c now rPipe rFire rPow s).lastPipeTime =
        (if now - s.lastPipeTime > 1500 then now else s.lastPipeTime) ∧
      (update c now rPipe rFire rPow s).lastFireballTime =
        (if now - s.lastFireballTime > 2000 then now else s.lastFireballTime) ∧
      (update c now rPipe rFire rPow s).lastPowerupTime =
        (if now - s.lastPowerupTime > 8000 then now else s.lastPowerupTime) ∧
      (update c now rPipe rFire rPow s).pipes =
        ((s.pipes ++ (if now - s.lastPipeTime > 1500 then [newPipe c rPipe] else [])).map
          (stepPipe s.bird.x)).filter (fun p => !decide (p.x < -PIPE_WIDTH)) ∧
      (update c now rPipe rFire rPow s).fireballs =
        ((s.fireballs ++
            (if now - s.lastFireballTime > 2000 then [newFireball c rFire] else [])).map
          stepFireball).filter (fun f => !decide (f.x < -f.width)) := by
  obtain ⟨h1, h2, h3, -⟩ := update_timers c now rPipe rFire rPow s hplay
  refine ⟨update_eq_runLoops c now rPipe rFire rPow s hplay, ?_, ?_, ?_, h1, h2, h3,
    update_pipes c now rPipe rFire rPow s hplay, update_fireballs c now rPipe rFire rPow s hplay⟩
  · rw [spawnPhase_eq]
  · rw [spawnPhase_eq]
  · rw [spawnPhase_eq]

/-- Witness for C9: after a reset at time 0, frames at 0, 1000 and 1600 create exactly one
pipe, in the frame at 1600. -/
theorem spawn_timers_witness :
    (run ⟨400, 600⟩ [Event.frame 0 (1/2) (1/2) (1/2)] freshState).pipes = [] ∧
      (run ⟨400, 600⟩ [Event.frame 0 (1/2) (1/2) (1/2), Event.frame 1000 (1/2) (1/2) (1/2)]
        freshState).pipes = [] ∧
      (run ⟨400, 600⟩ [Event.frame 0 (1/2) (1/2) (1/2), Event.frame 1000 (1/2) (1/2) (1/2),
        Event.frame 1600 (1/2) (1/2) (1/2)] freshState).pipes =
        [{ x := 398, gapY := 225, passed := false }] ∧
      (run ⟨400, 600⟩ [Event.frame 0 (1/2) (1/2) (1/2), Event.frame 1000 (1/2) (1/2) (1/2),
        Event.frame 1600 (1/2) (1/2) (1/2)] freshState).lastPipeTime = 1600 := by
  have e1 : update ⟨400, 600⟩ 0 (1/2) (1/2) (1/2) freshState =
      { freshState with bird := { freshState.bird with
          y := 30023 / 100, velocity := 23 / 100, rotation := 23 / 50 } } := by
    norm_num [update, updateBird, generatePipes, generateFireballs, generatePowerups, pipesLoop,
      fireballsLoop, powerupsLoop, checkBoundaries, freshState, resetGame, initialState, GRAVITY,
      MAX_ROTATION]
  have e2 : update ⟨400, 600⟩ 1000 (1/2) (1/2) (1/2)
      (update ⟨400, 600⟩ 0 (1/2) (1/2) (1/2) freshState) =
      { freshState with bird := { freshState.bird with
          y := 30069 / 100, velocity := 23 / 50, rotation := 23 / 25 } } := by
    rw [e1]
    norm_num [update, updateBird, generatePipes, generateFireballs, generatePowerups, pipesLoop,
      fireballsLoop, powerupsLoop, checkBoundaries, freshState, resetGame, initialState, GRAVITY,
      MAX_ROTATION]
  have hplay : Playing (update ⟨400, 600⟩ 1000 (1/2) (1/2) (1/2)
      (update ⟨400, 600⟩ 0 (1/2) (1/2) (1/2) freshState)) := by
    rw [e2]; simp [Playing, freshState, resetGame, initialState]
  obtain ⟨-, -, -, -, ht, -, -, hp, -⟩ :=
    spawn_timers ⟨400, 600⟩ 1600 (1/2) (1/2) (1/2) _ hplay
  refine ⟨?_, ?_, ?_, ?_⟩
  · simp only [run, step]; rw [e1]; rfl
  · simp only [run, step]; rw [e2]; rfl
  · simp only [run, step]; rw [hp, e2]
    norm_num [freshState, resetGame, initialState, newPipe, stepPipe, PIPE_SPEED, PIPE_WIDTH,
      PIPE_GAP]
  · simp only [run, step]; rw [ht, e2]
    norm_num [freshState, resetGame, initialState]

/-- The range `createPipe` really draws from: for a draw in `[0, 1)` and a field higher than
`PIPE_GAP + 100`, the top edge of the gap is at least -25 and the bottom edge stays more than
125 above the floor; the top edge is negative exactly when `r * (height - 250) < 25`. -/
theorem createPipe_gap_range (c : Canvas) (r : ℚ) (s : State) (h0 : 0 ≤ r) (h1 : r < 1)
    (hH : (c.height : ℚ) > PIPE_GAP + 100) :
    (createPipe c r s).pipes = s.pipes ++ [newPipe c r] ∧
      -25 ≤ (newPipe c r).gapY - PIPE_GAP / 2 ∧
      (newPipe c r).gapY + PIPE_GAP / 2 < (c.height : ℚ) - 125 ∧
      ((newPipe c r).gapY - PIPE_GAP / 2 < 0 ↔ r * ((c.height : ℚ) - 250) < 25) := by
  unfold PIPE_GAP at hH
  refine ⟨rfl, ?_, ?_, ?_⟩
  · simp only [newPipe, PIPE_GAP]
    nlinarith
  · simp only [newPipe, PIPE_GAP]
    nlinarith
  · simp only [newPipe, PIPE_GAP]
    constructor <;> intro h <;> linarith

/-- C10 at a failing input: on a 600-high field the draw `r = 1/16` gives a pipe whose gap
band starts above the top of the field, so the top segment has a negative height. -/
theorem createPipe_negative_top :
    (0 : ℚ) ≤ 1 / 16 ∧ (1 : ℚ) / 16 < 1 ∧ ((600 : ℕ) : ℚ) > PIPE_GAP + 100 ∧
      (createPipe ⟨400, 600⟩ (1 / 16) (initialState ⟨400, 600⟩)).pipes =
        [{ x := 400, gapY := 575 / 8, passed := false }] ∧
      (575 : ℚ) / 8 - PIPE_GAP / 2 = -25 / 8 ∧ (575 : ℚ) / 8 - PIPE_GAP / 2 < 0 := by
  refine ⟨by norm_num, by norm_num, by norm_num [PIPE_GAP], ?_, by norm_num [PIPE_GAP],
    by norm_num [PIPE_GAP]⟩
  norm_num [createPipe, initialState, PIPE_GAP]

/-- C11, as stated, fails twice.  On a 600-high field the draw 1/2 puts the new fireball
(30 high) at y = 275, not at 1/2 * (600 - 30) = 285.  On a 20-high field the draw 1/2 puts
the new powerup at y = -5, above the playfield. -/
theorem spawn_range_counterexample :
    (createFireball ⟨400, 600⟩ (1 / 2) (initialState ⟨400, 600⟩)).fireballs =
        [{ x := 400, y := 275, width := 30, height := 30 }] ∧
      (275 : ℚ) ≠ 1 / 2 * (((600 : ℕ) : ℚ) - 30) ∧
      (createPowerup ⟨400, 20⟩ (1 / 2) (initialState ⟨400, 20⟩)).powerups =
        [{ x := 400, y := -5, width := 30, height := 30, collected := false }] ∧
      (-5 : ℚ) < 0 := by
  refine ⟨?_, by norm_num, ?_, by norm_num⟩
  · norm_num [createFireball, initialState]
  · norm_num [createPowerup, initialState, POWERUP_SIZE]

/-- C11, amended.  On a field at least 50 high, for every draw `r` in `[0, 1)`: the powerup
pushed by `createPowerup` is at `y = r * (canvas.height - its height)`, every value of
`[0, canvas.height - its height)` is reached by some draw, and both that powerup and the
fireball pushed by `createFireball` lie wholly inside the playfield.  The fireball, 30 high,
is at `y = r * (canvas.height - 50)`, so it stays in `[0, canvas.height - 50]`. -/
theorem spawn_inside_field (c : Canvas) (r : ℚ) (s : State) (h0 : 0 ≤ r) (h1 : r < 1)
    (hH : 50 ≤ c.height) :
    (createPowerup c r s).powerups = s.powerups ++ [newPowerup c r] ∧
      (createFireball c r s).fireballs = s.fireballs ++ [newFireball c r] ∧
      (newPowerup c r).y = r * ((c.height : ℚ) - (newPowerup c r).height) ∧
      (0 ≤ (newPowerup c r).y ∧ (newPowerup c r).y < (c.height : ℚ) - (newPowerup c r).height) ∧
      (∀ y : ℚ, 0 ≤ y → y < (c.height : ℚ) - POWERUP_SIZE →
        ∃ r' : ℚ, 0 ≤ r' ∧ r' < 1 ∧ (newPowerup c r').y = y) ∧
      (0 ≤ (newPowerup c r).y ∧
        (newPowerup c r).y + (newPowerup c r).height ≤ (c.height : ℚ)) ∧
      (0 ≤ (newFireball c r).y ∧
        (newFireball c r).y + (newFireball c r).height ≤ (c.height : ℚ)) ∧
      ((newFireball c r).y = r * ((c.height : ℚ) - 50) ∧
        (newFireball c r).y ≤ (c.height : ℚ) - 50) := by
  have hH' : (50 : ℚ) ≤ (c.height : ℚ) := by exact_mod_cast hH
  have hpy : (newPowerup c r).y = r * ((c.height : ℚ) - 30) := by
    simp [newPowerup, POWERUP_SIZE]
  have hph : (newPowerup c r).height = 30 := rfl
  have hfy : (newFireball c r).y = r * ((c.height : ℚ) - 50) := rfl
  have hfh : (newFireball c r).height = 30 := rfl
  have hp0 : 0 ≤ r * ((c.height : ℚ) - 30) := mul_nonneg h0 (by linarith)
  have hp1 : r * ((c.height : ℚ) - 30) < (c.height : ℚ) - 30 := by nlinarith
  have hf0 : 0 ≤ r * ((c.height : ℚ) - 50) := mul_nonneg h0 (by linarith)
  have hf1 : r * ((c.height : ℚ) - 50) ≤ (c.height : ℚ) - 50 := by nlinarith
  refine ⟨rfl, rfl, ?_, ⟨?_, ?_⟩, ?_, ⟨?_, ?_⟩, ⟨?_, ?_⟩, ⟨hfy, by rw [hfy]; exact hf1⟩⟩
  · rw [hpy, hph]
  · rw [hpy]; exact hp0
  · rw [hpy, hph]; exact hp1
  · intro y hy0 hy1
    unfold POWERUP_SIZE at hy1
    have hpos : (0 : ℚ) < (c.height : ℚ) - 30 := by linarith
    refine ⟨y / ((c.height : ℚ) - 30), div_nonneg hy0 hpos.le, ?_, ?_⟩
    · rw [div_lt_one hpos]; exact hy1
    · simp only [newPowerup, POWERUP_SIZE]
      field_simp
  · rw [hpy]; exact hp0
  · rw [hpy, hph]; linarith
  · rw [hfy]; exact hf0
  · rw [hfy, hfh]; linarith

/-- Witness for C11: the draw 1/2 on a 400 x 600 field. -/
theorem spawn_inside_field_witness :
    (newPowerup ⟨400, 600⟩ (1 / 2)).y = 1 / 2 * (((600 : ℕ) : ℚ) - 30) ∧
      (0 ≤ (newFireball ⟨400, 600⟩ (1 / 2)).y ∧
        (newFireball ⟨400, 600⟩ (1 / 2)).y + (newFireball ⟨400, 600⟩ (1 / 2)).height ≤
          ((600 : ℕ) : ℚ)) := by
  have h := spawn_inside_field ⟨400, 600⟩ (1 / 2) (initialState ⟨400, 600⟩) (by norm_num)
    (by norm_num) (by norm_num)
  exact ⟨h.2.2.1, h.2.2.2.2.2.2.1⟩

/-- C12. Reset contract: after `resetGame` at clock value `now`, from any state, the three
entity lists are empty, the bird is at `canvas.height / 2` with velocity 0, rotation 0 and no
invincibility, the score is 0, the three spawn timers equal `now`, and the game is playing. -/
theorem resetGame_contract (c : Canvas) (now : ℤ) (s : State) :
    (resetGame c now s).pipes = [] ∧ (resetGame c now s).fireballs = [] ∧
      (resetGame c now s).powerups = [] ∧
      (resetGame c now s).bird.y = (c.height : ℚ) / 2 ∧
      (resetGame c now s).bird.velocity = 0 ∧ (resetGame c now s).bird.rotation = 0 ∧
      (resetGame c now s).bird.isInvincible = false ∧
      (resetGame c now s).score = 0 ∧
      (resetGame c now s).lastPipeTime = now ∧ (resetGame c now s).lastFireballTime = now ∧
      (resetGame c now s).lastPowerupTime = now ∧
      (resetGame c now s).gameStarted = true ∧ (resetGame c now s).gameOver = false ∧
      Playing (resetGame c now s) :=
  ⟨rfl, rfl, rfl, rfl, rfl, rfl, rfl, rfl, rfl, rfl, rfl, rfl, rfl, rfl, rfl⟩

/-- C13. Reset is idempotent: two `resetGame` calls at the same clock value give the same
state as one. -/
theorem resetGame_idempotent (c : Canvas) (now : ℤ) (s : State) :
    resetGame c now (resetGame c now s) = resetGame c now s := rfl

/-- C14. Frozen states: when the game has not started or is over, `update` returns the state
it was given, whatever the clock value and the random draws; and from no state at all does
`update` turn `gameOver` from true back to false. -/
theorem update_frozen (c : Canvas) (now : ℤ) (rPipe rFire rPow : ℚ) (s : State)
    (h : s.gameStarted = false ∨ s.gameOver = true) :
    update c now rPipe rFire rPow s = s ∧
      (∀ t : State, t.gameOver = true → (update c now rPipe rFire rPow t).gameOver = true) := by
  have hnp : ∀ t : State, (t.gameStarted = false ∨ t.gameOver = true) → ¬ Playing t := by
    intro t ht hp
    rcases ht with ht | ht
    · rw [hp.1] at ht; exact Bool.noConfusion ht
    · rw [hp.2] at ht; exact Bool.noConfusion ht
  refine ⟨update_of_not_playing c now rPipe rFire rPow s (hnp s h), ?_⟩
  intro t ht
  rw [update_of_not_playing c now rPipe rFire rPow t (hnp t (Or.inr ht))]
  exact ht

/-- Witness for C14: `crashedState` (game over, with a moving bird and a pipe on the field)
and the not yet started initial state are both left as they are, even at a clock value at
which every spawn timer would fire. -/
theorem update_frozen_witness :
    crashedState.gameOver = true ∧
      update ⟨400, 600⟩ 9000 (1/2) (1/2) (1/2) crashedState = crashedState ∧
      (initialState ⟨400, 600⟩).gameStarted = false ∧
      update ⟨400, 600⟩ 9000 (1/2) (1/2) (1/2) (initialState ⟨400, 600⟩) =
        initialState ⟨400, 600⟩ :=
  ⟨rfl, (update_frozen ⟨400, 600⟩ 9000 (1/2) (1/2) (1/2) crashedState (Or.inr rfl)).1, rfl,
    (update_frozen ⟨400, 600⟩ 9000 (1/2) (1/2) (1/2) (initialState ⟨400, 600⟩) (Or.inl rfl)).1⟩

/-- C15 at a failing input.  From `twoPowerupState` the frame at time 0 collects the first
powerup and the frame at time 1000 collects the second (0 < 1000 < 0 + 5000), leaving two
pending timeouts, due at 5000 and at 6000.  At 5000, inside the window [1000, 6000) of the
second collection, the first timeout runs and the bird is no longer invincible. -/
theorem second_window_cut_short :
    (run ⟨400, 600⟩ [Event.frame 0 0 0 0] twoPowerupState).timers = [5000] ∧
      (run ⟨400, 600⟩ [Event.frame 0 0 0 0, Event.frame 1000 0 0 0] twoPowerupState).timers =
        [5000, 6000] ∧
      (run ⟨400, 600⟩ [Event.frame 0 0 0 0, Event.frame 1000 0 0 0]
        twoPowerupState).bird.isInvincible = true ∧
      ((1000 : ℤ) ≤ 5000 ∧ (5000 : ℤ) < 1000 + INVINCIBILITY_DURATION) ∧
      (runTimers 5000 (run ⟨400, 600⟩ [Event.frame 0 0 0 0, Event.frame 1000 0 0 0]
        twoPowerupState)).bird.isInvincible = false := by
  have e1 : update ⟨400, 600⟩ 0 0 0 0 twoPowerupState =
      { twoPowerupState with
        bird := { twoPowerupState.bird with
          y := 30023 / 100, velocity := 23 / 100, rotation := 23 / 50, isInvincible := true }
        powerups := [{ x := 140, y := 300, width := 30, height := 30, collected := false }]
        timers := [5000] } := by
    norm_num [update, updateBird, generatePipes, generateFireballs, generatePowerups, pipesLoop,
      fireballsLoop, powerupsLoop, checkBoundaries, activatePowerup, twoPowerupState,
      initialState, overlaps, GRAVITY, MAX_ROTATION, POWERUP_SPEED, INVINCIBILITY_DURATION]
  have e2 : update ⟨400, 600⟩ 1000 0 0 0 (update ⟨400, 600⟩ 0 0 0 0 twoPowerupState) =
      { twoPowerupState with
        bird := { twoPowerupState.bird with
          y := 30069 / 100, velocity := 23 / 50, rotation := 23 / 25, isInvincible := true }
        powerups := []
        timers := [5000, 6000] } := by
    rw [e1]
    norm_num [update, updateBird, generatePipes, generateFireballs, generatePowerups, pipesLoop,
      fireballsLoop, powerupsLoop, checkBoundaries, activatePowerup, twoPowerupState,
      initialState, overlaps, GRAVITY, MAX_ROTATION, POWERUP_SPEED, INVINCIBILITY_DURATION]
  refine ⟨?_, ?_, ?_, ⟨by norm_num, by norm_num [INVINCIBILITY_DURATION]⟩, ?_⟩
  · simp only [run, step]; rw [e1]
  · simp only [run, step]; rw [e2]
  · simp only [run, step]; rw [e2]
  · simp only [run, step]; rw [e2]
    norm_num [runTimers]

/-- C16. Invincibility expiry.  Take a state right after a collection at time `T` with no
earlier timeout pending: the flag is set and every pending timeout is due at
`T + INVINCIBILITY_DURATION` (one per powerup collected in that frame).  After any run of
frames, inputs and timeouts without a further collection and without a reset, the flag seen
at a later clock value `now`, once the timeouts due by `now` have run, is true if
`now < T + INVINCIBILITY_DURATION` and false otherwise.  Such a state is what
`activatePowerup` at `T`, and what a collecting `update` at `T`, leave when nothing was
pending. -/
theorem invincibility_expiry (c : Canvas) (T now : ℤ) (k : ℕ) (evs : List Event) (s : State)
    (hflag : s.bird.isInvincible = true)
    (hpending : s.timers = List.replicate (k + 1) (T + INVINCIBILITY_DURATION))
    (hquiet : QuietRun c evs s)
    (hpast : ∀ t, Event.timeout t ∈ evs → t ≤ now) :
    (runTimers now (run c evs s)).bird.isInvincible =
        decide (now < T + INVINCIBILITY_DURATION) ∧
      (∀ s0 : State, s0.timers = [] →
        (activatePowerup T s0).bird.isInvincible = true ∧
          (activatePowerup T s0).timers = List.replicate 1 (T + INVINCIBILITY_DURATION)) ∧
      (∀ (s0 : State) (rPipe rFire rPow : ℚ), s0.timers = [] →
        (update c T rPipe rFire rPow s0).timers ≠ [] →
        (update c T rPipe rFire rPow s0).bird.isInvincible = true ∧
          ∃ j : ℕ, (update c T rPipe rFire rPow s0).timers =
            List.replicate (j + 1) (T + INVINCIBILITY_DURATION)) := by
  refine ⟨?_, ?_, ?_⟩
  · rcases quiet_run_pending c (T + INVINCIBILITY_DURATION) k evs s hflag hpending hquiet with
      ⟨a1, a2, -⟩ | ⟨b1, b2, t, b3, b4⟩
    · by_cases hd : T + INVINCIBILITY_DURATION ≤ now
      · rw [((runTimers_pending now _ k _ a2).1 hd).1]
        simp [hd]
      · rw [(runTimers_pending now _ k _ a2).2 hd, a1]
        simp [lt_of_not_le hd]
    · rw [runTimers_idle now _ b2, b1]
      have := hpast t b3
      have hd : ¬ now < T + INVINCIBILITY_DURATION := by omega
      simp [hd]
  · intro s0 h0
    simp [activatePowerup, h0]
  · intro s0 rPipe rFire rPow h0 hne
    obtain ⟨j, hj1, hj2⟩ := update_queues c T rPipe rFire rPow s0
    rw [h0, List.nil_append] at hj1
    rcases j with _ | j
    · rw [hj1] at hne
      exact absurd rfl hne
    · exact ⟨by rw [hj2]; simp, j, hj1⟩

/-- Witness for C16: in `powerupState` the frame at time 0 collects one powerup with nothing
pending; after a frame at 1000, an input at 2000 and a timeout check at 3000 the flag is
still set at 4999 and is cleared at 5000. -/
theorem invincibility_expiry_witness :
    (powerupState false).timers = [] ∧
      (update ⟨400, 600⟩ 0 0 0 0 (powerupState false)).timers = [5000] ∧
      (runTimers 4999 (run ⟨400, 600⟩
        [Event.frame 1000 0 0 0, Event.input 2000, Event.timeout 3000]
        (update ⟨400, 600⟩ 0 0 0 0 (powerupState false)))).bird.isInvincible = true ∧
      (runTimers 5000 (run ⟨400, 600⟩
        [Event.frame 1000 0 0 0, Event.input 2000, Event.timeout 3000]
        (update ⟨400, 600⟩ 0 0 0 0 (powerupState false)))).bird.isInvincible = false := by
  have e1 : update ⟨400, 600⟩ 0 0 0 0 (powerupState false) =
      { powerupState false with
        bird := { (powerupState false).bird with
          y := 30023 / 100, velocity := 23 / 100, rotation := 23 / 50, isInvincible := true }
        powerups := [{ x := 298, y := 100, width := 30, height := 30, collected := false }]
        timers := [5000] } := by
    norm_num [update, updateBird, generatePipes, generateFireballs, generatePowerups, pipesLoop,
      fireballsLoop, powerupsLoop, checkBoundaries, activatePowerup, powerupState,
      initialState, overlaps, GRAVITY, MAX_ROTATION, POWERUP_SPEED, INVINCIBILITY_DURATION]
  have hflag : (update ⟨400, 600⟩ 0 0 0 0 (powerupState false)).bird.isInvincible = true := by
    rw [e1]
  have hp : (update ⟨400, 600⟩ 0 0 0 0 (powerupState false)).timers =
      List.replicate (0 + 1) (0 + INVINCIBILITY_DURATION) := by
    rw [e1]; rfl
  have hq : QuietRun ⟨400, 600⟩ [Event.frame 1000 0 0 0, Event.input 2000, Event.timeout 3000]
      (update ⟨400, 600⟩ 0 0 0 0 (powerupState false)) := by
    rw [e1]
    refine ⟨?_, ?_, trivial, trivial⟩
    · norm_num [Quiet, update, updateBird, generatePipes, generateFireballs, generatePowerups,
        pipesLoop, fireballsLoop, powerupsLoop, checkBoundaries, activatePowerup, powerupState,
        initialState, overlaps, GRAVITY, MAX_ROTATION, POWERUP_SPEED]
    · norm_num [Quiet, step, update, updateBird, generatePipes, generateFireballs,
        generatePowerups, pipesLoop, fireballsLoop, powerupsLoop, checkBoundaries,
        activatePowerup, powerupState, initialState, overlaps, GRAVITY, MAX_ROTATION,
        POWERUP_SPEED]
  have hpast : ∀ now : ℤ, 3000 ≤ now → ∀ t,
      Event.timeout t ∈ [Event.frame 1000 0 0 0, Event.input 2000, Event.timeout 3000] →
        t ≤ now := by
    intro now hnow t ht
    simp only [List.mem_cons, List.mem_singleton, List.not_mem_nil, or_false] at ht
    rcases ht with ht | ht | ht
    · cases ht
    · cases ht
    · cases ht; exact hnow
  refine ⟨rfl, by rw [e1], ?_, ?_⟩
  · rw [(invincibility_expiry ⟨400, 600⟩ 0 4999 0 _ _ hflag hp hq (hpast 4999 (by norm_num))).1]
    norm_num [INVINCIBILITY_DURATION]
  · rw [(invincibility_expiry ⟨400, 600⟩ 0 5000 0 _ _ hflag hp hq (hpast 5000 (by norm_num))).1]
    norm_num [INVINCIBILITY_DURATION]

/-- C17, as stated, fails in a game-over state: in `crashedState` one input resets the game
and leaves the velocity at 0, a second input right after it sets the velocity to
`FLAP_STRENGTH`, so two deliveries do not give the state of one. -/
theorem double_input_after_game_over :
    crashedState.gameOver = true ∧
      (handleInput ⟨400, 600⟩ 7000 crashedState).bird.velocity = 0 ∧
      (handleInput ⟨400, 600⟩ 7000 (handleInput ⟨400, 600⟩ 7000 crashedState)).bird.velocity
        = FLAP_STRENGTH ∧
      handleInput ⟨400, 600⟩ 7000 (handleInput ⟨400, 600⟩ 7000 crashedState) ≠
        handleInput ⟨400, 600⟩ 7000 crashedState := by
  have h1 : (handleInput ⟨400, 600⟩ 7000 crashedState).bird.velocity = 0 := by
    simp [handleInput, crashedState, resetGame, initialState]
  have h2 : (handleInput ⟨400, 600⟩ 7000
      (handleInput ⟨400, 600⟩ 7000 crashedState)).bird.velocity = FLAP_STRENGTH := by
    simp [handleInput, crashedState, resetGame, initialState]
  refine ⟨rfl, h1, h2, ?_⟩
  intro h
  rw [h, h1] at h2
  norm_num [FLAP_STRENGTH] at h2

/-- C17, amended.  In a state that is not game over, one or more further deliveries of an
input right after the first one (at any clock values, with no `update` in between) leave
the state of the first delivery: the velocity is set, never added to.  In a game-over state
the first delivery resets, and every further delivery gives the reset state with the velocity
set to `FLAP_STRENGTH`. -/
theorem input_idempotent_unless_game_over (c : Canvas) (t t2 : ℤ) (ts : List ℤ) (s : State) :
    (s.gameOver = false →
      run c ((t :: t2 :: ts).map Event.input) s = run c [Event.input t] s ∧
        run c [Event.input t] s =
          { s with gameStarted := true, bird := { s.bird with velocity := FLAP_STRENGTH } }) ∧
    (s.gameOver = true →
      run c [Event.input t] s = resetGame c t s ∧
        run c ((t :: t2 :: ts).map Event.input) s =
          { resetGame c t s with
            bird := { (resetGame c t s).bird with velocity := FLAP_STRENGTH } }) := by
  constructor
  · intro h
    refine ⟨?_, ?_⟩
    · rw [run_inputs_of_not_over c (t2 :: ts) t s h]; rfl
    · simp only [run, step]
      exact handleInput_of_not_over c t s h
  · intro h
    have h1 : handleInput c t s = resetGame c t s := by
      cases hs : s.gameStarted <;> simp [handleInput, resetGame, h, hs]
    refine ⟨?_, ?_⟩
    · simp only [run, step]; exact h1
    · have h2 : (resetGame c t s).gameOver = false := rfl
      simp only [List.map_cons, run, step]
      rw [h1]
      have := run_inputs_of_not_over c ts t2 (resetGame c t s) h2
      simp only [List.map_cons, run, step] at this
      rw [this, handleInput_of_not_over c t2 _ h2]
      rfl

/-- Witness for C17: three inputs on `fallingState` (not over) give the state of one; three
inputs on `crashedState` (over) give the reset state with velocity -7. -/
theorem input_idempotent_unless_game_over_witness :
    fallingState.gameOver = false ∧
      run ⟨400, 600⟩ ([7000, 7001, 7002].map Event.input) fallingState =
        run ⟨400, 600⟩ [Event.input 7000] fallingState ∧
      crashedState.gameOver = true ∧
      (run ⟨400, 600⟩ ([7000, 7001, 7002].map Event.input) crashedState).bird.velocity = -7 := by
  have h1 := (input_idempotent_unless_game_over ⟨400, 600⟩ 7000 7001 [7002] fallingState).1 rfl
  have h2 := (input_idempotent_unless_game_over ⟨400, 600⟩ 7000 7001 [7002] crashedState).2 rfl
  refine ⟨rfl, h1.1, rfl, ?_⟩
  rw [h2.2]
  rfl

/-- C18. Scroll and lazy cleanup equal map-then-filter.  In a playing state the pipe list
after `update` is the list walked by the backwards splice loop (old pipes, then the new one if
any), every `x` lowered by `PIPE_SPEED`, without exactly the pipes whose new `x` is below
`-PIPE_WIDTH`, in the same order (the `passed` marks being set in the same pass); likewise
the fireballs with `FIREBALL_SPEED` and `-width`.  So nothing off screen is left, and
everything still on screen is kept. -/
theorem scroll_cleanup_refines (c : Canvas) (now : ℤ) (rPipe rFire rPow : ℚ) (s : State)
    (hplay : Playing s) :
    (update c now rPipe rFire rPow s).pipes =
        scrollThenDropPipes ((visitedPipes c now rPipe s).map (markPassed s.bird.x)) ∧
      (update c now rPipe rFire rPow s).pipes.map (fun p => (p.x, p.gapY)) =
        (scrollThenDropPipes (visitedPipes c now rPipe s)).map (fun p => (p.x, p.gapY)) ∧
      (update c now rPipe rFire rPow s).fireballs =
        scrollThenDropFireballs (visitedFireballs c now rFire s) ∧
      (∀ p ∈ (update c now rPipe rFire rPow s).pipes, ¬ p.x < -PIPE_WIDTH) ∧
      (∀ f ∈ (update c now rPipe rFire rPow s).fireballs, ¬ f.x < -f.width) ∧
      (∀ p ∈ visitedPipes c now rPipe s, ¬ p.x - PIPE_SPEED < -PIPE_WIDTH →
        ∃ q ∈ (update c now rPipe rFire rPow s).pipes,
          q.x = p.x - PIPE_SPEED ∧ q.gapY = p.gapY) ∧
      (∀ f ∈ visitedFireballs c now rFire s, ¬ f.x - FIREBALL_SPEED < -f.width →
        { f with x := f.x - FIREBALL_SPEED } ∈ (update c now rPipe rFire rPow s).fireballs) := by
  have hp := update_pipes c now rPipe rFire rPow s hplay
  have hf : (update c now rPipe rFire rPow s).fireballs =
      scrollThenDropFireballs (visitedFireballs c now rFire s) :=
    update_fireballs c now rPipe rFire rPow s hplay
  have hp1 : (update c now rPipe rFire rPow s).pipes =
      scrollThenDropPipes ((visitedPipes c now rPipe s).map (markPassed s.bird.x)) := by
    rw [hp]
    unfold scrollThenDropPipes
    rw [List.map_map]
    congr 1
    apply List.map_congr_left
    intro p _
    exact stepPipe_eq_scroll_mark s.bird.x p
  refine ⟨hp1, ?_, hf, ?_, ?_, ?_, ?_⟩
  · rw [hp1]
    exact scroll_positions_ignore_marks s.bird.x _
  · intro p hp'
    rw [hp] at hp'
    have := (List.mem_filter.mp hp').2
    simpa [pipeGone] using this
  · intro f hf'
    rw [hf] at hf'
    unfold scrollThenDropFireballs at hf'
    have := (List.mem_filter.mp hf').2
    simpa using this
  · intro p hp' hon
    refine ⟨stepPipe s.bird.x p, ?_, stepPipe_x _ _, stepPipe_gapY _ _⟩
    rw [hp]
    refine List.mem_filter.mpr ⟨List.mem_map.mpr ⟨p, hp', rfl⟩, ?_⟩
    simp only [pipeGone, stepPipe_x]
    simpa using hon
  · intro f hf' hon
    rw [hf]
    unfold scrollThenDropFireballs
    refine List.mem_filter.mpr ⟨List.mem_map.mpr ⟨f, hf', rfl⟩, ?_⟩
    simpa using hon

/-- Witness for C18: in `scrollState` the pipe going from -49 to -51 and the fireball going
from -27 to -31 are dropped, the other two are kept, scrolled. -/
theorem scroll_cleanup_refines_witness :
    Playing scrollState ∧
      (update ⟨400, 600⟩ 0 0 0 0 scrollState).pipes =
        [{ x := 198, gapY := 310, passed := false }] ∧
      (update ⟨400, 600⟩ 0 0 0 0 scrollState).fireballs =
        [{ x := 296, y := 10, width := 30, height := 30 }] := by
  have hplay : Playing scrollState := by simp [Playing, scrollState, initialState]
  obtain ⟨h1, -, h3, -⟩ := scroll_cleanup_refines ⟨400, 600⟩ 0 0 0 0 scrollState hplay
  refine ⟨hplay, ?_, ?_⟩
  · rw [h1]
    norm_num [scrollThenDropPipes, visitedPipes, markPassed, scrollState, initialState,
      PIPE_SPEED, PIPE_WIDTH, List.filter_cons]
  · rw [h3]
    norm_num [scrollThenDropFireballs, visitedFireballs, scrollState, initialState,
      FIREBALL_SPEED, List.filter_cons]

/-- C19. Powerup collection removes exactly the right entries.  In a playing state with
`bird.x ≥ 0` and every powerup uncollected, the powerup list after `update` is the scrolled
list (new spawn included) without the powerups that are off screen (`x < -width`) or overlap
the bird as boxes, in the same order; no scrolled powerup is both off screen and on the bird,
so the two `splice` calls never both act; the powerups left are uncollected; and
`activatePowerup` runs once per overlapping powerup (each run queues one timeout), hence at
all if and only if some powerup overlapped, and then the bird is invincible whatever it was
before.  The bird meant is the one after the physics step of this tick. -/
theorem powerup_collection (c : Canvas) (now : ℤ) (rPipe rFire rPow : ℚ) (s : State)
    (hplay : Playing s) (hx : 0 ≤ s.bird.x) (hc : ∀ p ∈ s.powerups, p.collected = false) :
    (update c now rPipe rFire rPow s).powerups =
        ((visitedPowerups c now rPow s).map stepPowerup).filter
          (fun p => !decide (p.x < -p.width) &&
            !decide (overlaps (updateBird s).bird p.x p.y p.width p.height)) ∧
      (∀ p ∈ visitedPowerups c now rPow s,
        ¬ ((stepPowerup p).x < -(stepPowerup p).width ∧
          overlaps (updateBird s).bird (stepPowerup p).x (stepPowerup p).y (stepPowerup p).width
            (stepPowerup p).height)) ∧
      (∀ p ∈ (update c now rPipe rFire rPow s).powerups, p.collected = false) ∧
      (update c now rPipe rFire rPow s).timers =
        s.timers ++ List.replicate
          ((visitedPowerups c now rPow s).countP
            (fun p => decide (overlaps (updateBird s).bird (stepPowerup p).x (stepPowerup p).y
              (stepPowerup p).width (stepPowerup p).height)))
          (now + INVINCIBILITY_DURATION) ∧
      ((update c now rPipe rFire rPow s).timers ≠ s.timers ↔
        ∃ p ∈ visitedPowerups c now rPow s,
          overlaps (updateBird s).bird (stepPowerup p).x (stepPowerup p).y (stepPowerup p).width
            (stepPowerup p).height) ∧
      (update c now rPipe rFire rPow s).bird.isInvincible =
        (s.bird.isInvincible ||
          (visitedPowerups c now rPow s).any
            (fun p => decide (overlaps (updateBird s).bird (stepPowerup p).x (stepPowerup p).y
              (stepPowerup p).width (stepPowerup p).height))) := by
  obtain ⟨h1, h2, h3⟩ := update_powerups c now rPipe rFire rPow s hplay hx hc
  have hbx : 0 ≤ (updateBird s).bird.x := by simpa [updateBird] using hx
  refine ⟨h1, ?_, ?_, h2, ?_, h3⟩
  · intro p _ hboth
    exact hit_powerup_not_gone (updateBird s).bird (stepPowerup p) hbx hboth.2 hboth.1
  · intro p hp
    rw [h1] at hp
    obtain ⟨hp1, -⟩ := List.mem_filter.mp hp
    obtain ⟨q, hq, rfl⟩ := List.mem_map.mp hp1
    have : q.collected = false := by
      unfold visitedPowerups at hq
      rcases List.mem_append.mp hq with hq | hq
      · exact hc q hq
      · by_cases hs : now - s.lastPowerupTime > 8000
        · simp only [hs, if_true, List.mem_singleton] at hq
          rw [hq]; rfl
        · simp [hs] at hq
    exact this
  · rw [h2]
    constructor
    · intro hne
      by_contra hnone
      apply hne
      have h0 : (visitedPowerups c now rPow s).countP
          (fun p => decide (hitsPowerup (updateBird s).bird (stepPowerup p))) = 0 := by
        rw [List.countP_eq_zero]
        intro p hp hhit
        exact hnone ⟨p, hp, by simpa using hhit⟩
      rw [h0]
      simp
    · rintro ⟨p, hp, hhit⟩ heq
      have hpos : 0 < (visitedPowerups c now rPow s).countP
          (fun p => decide (hitsPowerup (updateBird s).bird (stepPowerup p))) := by
        rw [List.countP_pos_iff]
        exact ⟨p, hp, by simpa using hhit⟩
      have hlen := congrArg List.length heq
      simp only [List.length_append, List.length_replicate] at hlen
      omega

/-- Witness for C19: in `powerupState` the powerup leaving the screen and the one on the bird
are removed, the third stays, one timeout is queued and the bird becomes invincible. -/
theorem powerup_collection_witness :
    Playing (powerupState false) ∧
      (update ⟨400, 600⟩ 0 0 0 0 (powerupState false)).powerups =
        [{ x := 298, y := 100, width := 30, height := 30, collected := false }] ∧
      (update ⟨400, 600⟩ 0 0 0 0 (powerupState false)).timers = [5000] ∧
      (update ⟨400, 600⟩ 0 0 0 0 (powerupState false)).bird.isInvincible = true := by
  have hplay : Playing (powerupState false) := by simp [Playing, powerupState, initialState]
  have hx : (0 : ℚ) ≤ (powerupState false).bird.x := by norm_num [powerupState, initialState]
  have hc : ∀ p ∈ (powerupState false).powerups, p.collected = false := by
    intro p hp
    simp only [powerupState, initialState, List.mem_cons, List.mem_singleton,
      List.not_mem_nil, or_false] at hp
    rcases hp with rfl | rfl | rfl <;> rfl
  obtain ⟨h1, -, -, h4, -, h6⟩ :=
    powerup_collection ⟨400, 600⟩ 0 0 0 0 (powerupState false) hplay hx hc
  refine ⟨hplay, ?_, ?_, ?_⟩
  · rw [h1]
    norm_num [visitedPowerups, powerupState, initialState, stepPowerup, updateBird, overlaps,
      POWERUP_SPEED, GRAVITY, List.filter_cons]
  · rw [h4]
    norm_num [visitedPowerups, powerupState, initialState, stepPowerup, updateBird, overlaps,
      POWERUP_SPEED, GRAVITY, List.countP_cons, INVINCIBILITY_DURATION]
  · rw [h6]
    norm_num [visitedPowerups, powerupState, initialState, stepPowerup, updateBird, overlaps,
      POWERUP_SPEED, GRAVITY]

/-- C20, as stated, fails on a narrow canvas: on a 60 x 600 field the powerup spawned in the
first tick (draw 1/2, clock 9000) already overlaps the bird after its first scroll and is
collected at once, so the game holds no powerup after that tick. -/
theorem first_tick_powerup_collected :
    (9000 : ℤ) > 8000 ∧
      (update ⟨60, 600⟩ 9000 (1 / 2) (1 / 2) (1 / 2)
        (handleInput ⟨60, 600⟩ 9000 (initialState ⟨60, 600⟩))).powerups = [] := by
  refine ⟨by norm_num, ?_⟩
  have hplay : Playing (handleInput ⟨60, 600⟩ 9000 (initialState ⟨60, 600⟩)) := by
    simp [Playing, handleInput, initialState]
  have hx : (0 : ℚ) ≤ (handleInput ⟨60, 600⟩ 9000 (initialState ⟨60, 600⟩)).bird.x := by
    norm_num [handleInput, initialState]
  have hc : ∀ p ∈ (handleInput ⟨60, 600⟩ 9000 (initialState ⟨60, 600⟩)).powerups,
      p.collected = false := by
    simp [handleInput, initialState]
  rw [(update_powerups ⟨60, 600⟩ 9000 (1 / 2) (1 / 2) (1 / 2) _ hplay hx hc).1]
  norm_num [visitedPowerups, handleInput, initialState, newPowerup, stepPowerup, updateBird,
    hitsPowerup, overlaps, powerupGone, POWERUP_SPEED, POWERUP_SIZE, GRAVITY, FLAP_STRENGTH,
    List.filter_cons]

/-- C20, amended.  From the initial module state, one `handleInput` (which leaves the three
last-spawn times at 0) and one `update` at a clock value `now > 8000` leave exactly one pipe
and exactly one fireball, each spawned at `x = canvas.width` and scrolled once, and set the
three last-spawn times to `now`.  The powerup spawned in that tick is there too, scrolled
once, unless it overlaps the bird at once and is collected; that cannot happen when
`canvas.width ≥ 63`. -/
theorem first_tick_spawns (c : Canvas) (t0 now : ℤ) (rPipe rFire rPow : ℚ) (hnow : now > 8000) :
    ((handleInput c t0 (initialState c)).lastPipeTime = 0 ∧
        (handleInput c t0 (initialState c)).lastFireballTime = 0 ∧
        (handleInput c t0 (initialState c)).lastPowerupTime = 0) ∧
      (∃ p : Pipe,
        (update c now rPipe rFire rPow (handleInput c t0 (initialState c))).pipes = [p] ∧
          p.x = (c.width : ℚ) - PIPE_SPEED ∧ p.gapY = (newPipe c rPipe).gapY) ∧
      (update c now rPipe rFire rPow (handleInput c t0 (initialState c))).fireballs =
        [{ newFireball c rFire with x := (c.width : ℚ) - FIREBALL_SPEED }] ∧
      (update c now rPipe rFire rPow (handleInput c t0 (initialState c))).powerups =
        (if overlaps (update c now rPipe rFire rPow (handleInput c t0 (initialState c))).bird
            ((c.width : ℚ) - POWERUP_SPEED) (newPowerup c rPow).y POWERUP_SIZE POWERUP_SIZE
          then [] else [{ newPowerup c rPow with x := (c.width : ℚ) - POWERUP_SPEED }]) ∧
      (63 ≤ c.width →
        (update c now rPipe rFire rPow (handleInput c t0 (initialState c))).powerups =
          [{ newPowerup c rPow with x := (c.width : ℚ) - POWERUP_SPEED }]) ∧
      (update c now rPipe rFire rPow (handleInput c t0 (initialState c))).lastPipeTime = now ∧
      (update c now rPipe rFire rPow (handleInput c t0 (initialState c))).lastFireballTime = now ∧
      (update c now rPipe rFire rPow (handleInput c t0 (initialState c))).lastPowerupTime = now := by
  have hs0 : handleInput c t0 (initialState c) =
      { initialState c with
        gameStarted := true
        bird := { (initialState c).bird with velocity := FLAP_STRENGTH } } :=
    handleInput_of_not_over c t0 (initialState c) rfl
  have hplay : Playing (handleInput c t0 (initialState c)) := by
    rw [hs0]; exact ⟨rfl, rfl⟩
  have hW : (0 : ℚ) ≤ (c.width : ℚ) := Nat.cast_nonneg _
  have hx : (0 : ℚ) ≤ (handleInput c t0 (initialState c)).bird.x := by
    rw [hs0]
    simp only [initialState]
    positivity
  have hc : ∀ p ∈ (handleInput c t0 (initialState c)).powerups, p.collected = false := by
    rw [hs0]; simp [initialState]
  have h1 : now - (0 : ℤ) > 1500 := by omega
  have h2 : now - (0 : ℤ) > 2000 := by omega
  have h3 : now - (0 : ℤ) > 8000 := by omega
  obtain ⟨ht1, ht2, ht3, -⟩ := update_timers c now rPipe rFire rPow _ hplay
  have hp := update_pipes c now rPipe rFire rPow _ hplay
  have hf := update_fireballs c now rPipe rFire rPow _ hplay
  obtain ⟨hw, -, -⟩ := update_powerups c now rPipe rFire rPow _ hplay hx hc
  obtain ⟨hbx, -, -, -, hbw, -⟩ := update_bird_fields c now rPipe rFire rPow _ hplay
  have e1 : (handleInput c t0 (initialState c)).lastPipeTime = 0 := by rw [hs0]; rfl
  have e2 : (handleInput c t0 (initialState c)).lastFireballTime = 0 := by rw [hs0]; rfl
  have e3 : (handleInput c t0 (initialState c)).lastPowerupTime = 0 := by rw [hs0]; rfl
  have e4 : (handleInput c t0 (initialState c)).pipes = [] := by rw [hs0]; rfl
  have e5 : (handleInput c t0 (initialState c)).fireballs = [] := by rw [hs0]; rfl
  have e6 : (handleInput c t0 (initialState c)).powerups = [] := by rw [hs0]; rfl
  have e7 : (handleInput c t0 (initialState c)).bird.x = (c.width : ℚ) / 3 := by rw [hs0]; rfl
  have e8 : (handleInput c t0 (initialState c)).bird.width = 40 := by rw [hs0]; rfl
  have hgeo : ∀ x y w h : ℚ,
      overlaps (updateBird (handleInput c t0 (initialState c))).bird x y w h ↔
        overlaps (update c now rPipe rFire rPow (handleInput c t0 (initialState c))).bird
          x y w h := by
    intro x y w h
    obtain ⟨a1, a2, -, -, a5, a6⟩ := update_bird_fields c now rPipe rFire rPow _ hplay
    unfold overlaps
    rw [a1, a2, a5, a6]
    simp [updateBird]
  have hpw : (update c now rPipe rFire rPow (handleInput c t0 (initialState c))).powerups =
      (if overlaps (update c now rPipe rFire rPow (handleInput c t0 (initialState c))).bird
          ((c.width : ℚ) - POWERUP_SPEED) (newPowerup c rPow).y POWERUP_SIZE POWERUP_SIZE
        then [] else [{ newPowerup c rPow with x := (c.width : ℚ) - POWERUP_SPEED }]) := by
    rw [hw]
    have hgone : ¬ powerupGone (stepPowerup (newPowerup c rPow)) := by
      simp only [powerupGone, stepPowerup, newPowerup, POWERUP_SPEED, POWERUP_SIZE]
      intro h
      linarith
    have hstep : stepPowerup (newPowerup c rPow) =
        { newPowerup c rPow with x := (c.width : ℚ) - POWERUP_SPEED } := rfl
    have hhit : hitsPowerup (updateBird (handleInput c t0 (initialState c))).bird
        (stepPowerup (newPowerup c rPow)) ↔
        overlaps (update c now rPipe rFire rPow (handleInput c t0 (initialState c))).bird
          ((c.width : ℚ) - POWERUP_SPEED) (newPowerup c rPow).y POWERUP_SIZE POWERUP_SIZE :=
      hgeo _ _ _ _
    simp only [visitedPowerups, e3, e6, h3, if_true, List.nil_append, List.map_cons, List.map_nil,
      List.filter_cons, List.filter_nil, hgone, decide_False, Bool.not_false, Bool.true_and]
    by_cases hh : hitsPowerup (updateBird (handleInput c t0 (initialState c))).bird
        (stepPowerup (newPowerup c rPow))
    · rw [if_pos (hhit.mp hh)]
      simp [hh]
    · rw [if_neg (fun h => hh (hhit.mpr h))]
      rw [hstep] at hh ⊢
      simp [hh]
  refine ⟨⟨e1, e2, e3⟩, ⟨stepPipe ((c.width : ℚ) / 3) (newPipe c rPipe), ?_, ?_, ?_⟩, ?_, hpw, ?_,
    ?_, ?_, ?_⟩
  · rw [hp, e7]
    have hgone : ¬ pipeGone (stepPipe ((c.width : ℚ) / 3) (newPipe c rPipe)) := by
      simp only [pipeGone, stepPipe_x, newPipe, PIPE_SPEED, PIPE_WIDTH]
      intro h
      linarith
    have h1' : (1500 : ℤ) < now := by omega
    simp [visitedPipes, e1, e4, h1', hgone]
  · rw [stepPipe_x]; rfl
  · rw [stepPipe_gapY]
  · rw [hf]
    have hgone : ¬ fireballGone (stepFireball (newFireball c rFire)) := by
      simp only [fireballGone, stepFireball, newFireball, FIREBALL_SPEED]
      intro h
      linarith
    have h2' : (2000 : ℤ) < now := by omega
    simp [e2, e5, h2', hgone]
    rfl
  · intro h63
    rw [hpw]
    have h63' : (63 : ℚ) ≤ (c.width : ℚ) := by exact_mod_cast h63
    rw [if_neg]
    intro hov
    unfold overlaps at hov
    rw [hbx, hbw, e7, e8] at hov
    unfold POWERUP_SPEED at hov
    linarith [hov.1]
  · rw [ht1, e1, if_pos h1]
  · rw [ht2, e2, if_pos h2]
  · rw [ht3, e3, if_pos h3]

/-- Witness for C20: a 400 x 600 field, first tick at clock value 9000. -/
theorem first_tick_spawns_witness :
    (9000 : ℤ) > 8000 ∧
      (update ⟨400, 600⟩ 9000 (1 / 2) (1 / 2) (1 / 2)
        (handleInput ⟨400, 600⟩ 9000 (initialState ⟨400, 600⟩))).fireballs =
        [{ newFireball ⟨400, 600⟩ (1 / 2) with x := ((400 : ℕ) : ℚ) - FIREBALL_SPEED }] ∧
      (update ⟨400, 600⟩ 9000 (1 / 2) (1 / 2) (1 / 2)
        (handleInput ⟨400, 600⟩ 9000 (initialState ⟨400, 600⟩))).powerups =
        [{ newPowerup ⟨400, 600⟩ (1 / 2) with x := ((400 : ℕ) : ℚ) - POWERUP_SPEED }] ∧
      (update ⟨400, 600⟩ 9000 (1 / 2) (1 / 2) (1 / 2)
        (handleInput ⟨400, 600⟩ 9000 (initialState ⟨400, 600⟩))).lastPowerupTime = 9000 := by
  have h := first_tick_spawns ⟨400, 600⟩ 9000 9000 (1 / 2) (1 / 2) (1 / 2) (by norm_num)
  exact ⟨by norm_num, h.2.2.1, h.2.2.2.2.1 (by norm_num), h.2.2.2.2.2.2.2⟩

end FlappyHerring
